/-
  Verification development for the U.bot orchestration core.

  Shallow embedding of the core pipeline of the repository:
  planner (src/services/planner), blind judge (src/services/blindJudge),
  stability tracker (src/services/stabilityTracker), decision engine
  (src/services/decisionEngine) and the orchestrator state machine
  (src/services/orchestrator), together with the JSON handling both
  parsers rely on.

  Modelling conventions:
  * JavaScript numbers are modelled as exact rationals (ℚ); JSON numeric
    literals are parsed exactly (mantissa times a power of ten).
  * JavaScript strings are Lean strings; `toLowerCase` is `String.toLower`
    (the two agree on the ASCII data handled here).
  * `Date.now()` is an explicit `now : Nat` parameter; the orchestrator
    feeds the round number to it.  Identifiers built from it only need
    local uniqueness.
  * The injected model function `aiProvider` is an arbitrary function from
    a call slot (2·(round−1) for the plan call, 2·(round−1)+1 for the
    evaluation call) and the prompt to either a response or a thrown
    error, so every theorem quantifies over all possible model behaviour,
    including per-call (stateful) behaviour.
  * A thrown JavaScript value is carried in `Except.error` as the string
    that `${error}` interpolation would produce; host-engine texts such as
    the `SyntaxError` message of `JSON.parse` are modelled by fixed
    representative strings.
  * Observer hooks (`onRoundStart`, `onLog`, …) only receive values and
    must not mutate them, so they are omitted from the state model.
-/

import Mathlib

set_option linter.unusedVariables false

/-! ## JSON values and JavaScript value semantics -/

/-- JSON value as produced by `JSON.parse`.  Numbers are exact rationals. -/
inductive Json where
  | null : Json
  | bool : Bool → Json
  | num : ℚ → Json
  | str : String → Json
  | arr : List Json → Json
  | obj : List (String × Json) → Json

/-- The character `{` (written via its code point to keep it out of literals). -/
def openBrace : Char := Char.ofNat 123

/-- The character `}`. -/
def closeBrace : Char := Char.ofNat 125

/-- JavaScript truthiness of a JSON value (`NaN` cannot arise here). -/
def jsTruthy : Json → Bool
  | Json.null => false
  | Json.bool b => b
  | Json.num q => q ≠ 0
  | Json.str s => s ≠ ""
  | Json.arr _ => true
  | Json.obj _ => true

/-- Is this value `null`? -/
def Json.isNull : Json → Bool
  | Json.null => true
  | _ => false

/-- Decimal rendering of an exact rational whose denominator divides a power
of ten (every number produced by the JSON parser has this shape); used to
model `String(x)` for numbers.  Integers render exactly as in JavaScript. -/
def ratToDecimalString (q : ℚ) : String :=
  if q.den = 1 then
    toString q.num
  else
    -- smallest k with q·10^k integral, capped by the denominator size
    let k := (List.range (q.den + 1)).find? (fun k => (q * 10 ^ k).den = 1) |>.getD 0
    let n := (q * 10 ^ k).num
    let sign := if n < 0 then "-" else ""
    let digits := toString n.natAbs
    let digits := Nat.repeat (fun s => "0" ++ s) (k + 1 - digits.length) digits
    sign ++ digits.dropRight k ++ "." ++ digits.takeRight k

mutual

/-- JavaScript `String(v)` conversion for JSON values: strings unchanged,
`[object Object]` for objects, comma-joined element strings for arrays
(where a `null` element renders as the empty string). -/
def jsToString : Json → String
  | Json.null => "null"
  | Json.bool b => if b then "true" else "false"
  | Json.num q => ratToDecimalString q
  | Json.str s => s
  | Json.arr xs => String.intercalate "," (jsArrStrings xs)
  | Json.obj _ => "[object Object]"

/-- Element renderings used by `Array.prototype.toString`. -/
def jsArrStrings : List Json → List String
  | [] => []
  | Json.null :: js => "" :: jsArrStrings js
  | j :: js => jsToString j :: jsArrStrings js

end

/-- Last-binding property lookup of a JavaScript object built by
`JSON.parse` (later duplicate keys overwrite earlier ones); property access
on any non-object value yields `undefined` (modelled as `none`).  Access on
`null` throws instead and is handled at each use site. -/
def lookupLast : List (String × Json) → String → Option Json
  | [], _ => none
  | (k, v) :: rest, key =>
    match lookupLast rest key with
    | some w => some w
    | none => if k = key then some v else none

/-- Property access `j.key` on a parsed JSON value. -/
def jsGetField (j : Json) (key : String) : Option Json :=
  match j with
  | Json.obj fields => lookupLast fields key
  | _ => none

/-! ## A model of `JSON.parse`

Recursive-descent parser with a fuel argument (the input length suffices,
since every recursive step consumes at least one character first). -/

/-- JSON whitespace skipping (`space`, `tab`, `\n`, `\r`). -/
def skipWs : List Char → List Char
  | c :: cs => if c = ' ' ∨ c = '\t' ∨ c = '\n' ∨ c = '\r' then skipWs cs else c :: cs
  | [] => []

/-- Parse a run of decimal digits; returns the value, the digit count and
the rest.  Fails when no digit is present. -/
def parseDigitsAux : List Char → Nat → Nat → Nat × Nat × List Char
  | c :: cs, v, n =>
    if c.isDigit then parseDigitsAux cs (v * 10 + (c.toNat - 48)) (n + 1) else (v, n, c :: cs)
  | [], v, n => (v, n, [])

/-- Digits with at-least-one requirement. -/
def parseDigits (s : List Char) : Option (Nat × Nat × List Char) :=
  let (v, n, rest) := parseDigitsAux s 0 0
  if n = 0 then none else some (v, n, rest)

/-- Parse the body of a JSON string literal (after the opening quote),
accumulating characters; supports the escape sequences of JSON. -/
def parseJsonStringAux : List Char → List Char → Option (String × List Char)
  | [], _ => none
  | c :: cs, acc =>
    if c = '"' then some (String.mk acc.reverse, cs)
    else if c = '\\' then
      match cs with
      | [] => none
      | e :: cs' =>
        if e = '"' then parseJsonStringAux cs' ('"' :: acc)
        else if e = '\\' then parseJsonStringAux cs' ('\\' :: acc)
        else if e = '/' then parseJsonStringAux cs' ('/' :: acc)
        else if e = 'b' then parseJsonStringAux cs' (Char.ofNat 8 :: acc)
        else if e = 'f' then parseJsonStringAux cs' (Char.ofNat 12 :: acc)
        else if e = 'n' then parseJsonStringAux cs' ('\n' :: acc)
        else if e = 'r' then parseJsonStringAux cs' (Char.ofNat 13 :: acc)
        else if e = 't' then parseJsonStringAux cs' ('\t' :: acc)
        else if e = 'u' then
          match cs' with
          | h1 :: h2 :: h3 :: h4 :: cs'' =>
            let hex? : Char → Option Nat := fun h =>
              if h.isDigit then some (h.toNat - 48)
              else if 'a' ≤ h ∧ h ≤ 'f' then some (h.toNat - 87)
              else if 'A' ≤ h ∧ h ≤ 'F' then some (h.toNat - 55)
              else none
            match hex? h1, hex? h2, hex? h3, hex? h4 with
            | some a, some b, some c', some d =>
              parseJsonStringAux cs'' (Char.ofNat (((a * 16 + b) * 16 + c') * 16 + d) :: acc)
            | _, _, _, _ => none
          | _ => none
        else none
    else if c.toNat < 32 then none
    else parseJsonStringAux cs (c :: acc)

/-- Parse a JSON number starting at `s` (first character already known to
start a number).  Grammar: `-? (0 | [1-9][0-9]*) (. [0-9]+)? ([eE][+-]?[0-9]+)?`. -/
def parseJsonNumber (s : List Char) : Option (ℚ × List Char) := do
  let (neg, s) := match s with
    | '-' :: rest => (true, rest)
    | _ => (false, s)
  -- integer part: a leading 0 must stand alone
  let (ip, s) ← match s with
    | '0' :: rest =>
      match rest with
      | c :: _ => if c.isDigit then none else some (0, rest)
      | [] => some (0, ([] : List Char))
    | _ => (parseDigits s).map (fun (v, _, r) => (v, r))
  let (frac, fd, s) := match s with
    | '.' :: rest =>
      match parseDigits rest with
      | some (v, n, r) => (some v, n, r)
      | none => (none, 0, '.' :: rest)
    | _ => (some 0, 0, s)
  let fracV ← frac
  let (expOk, expNeg, expV, s) := match s with
    | c :: rest =>
      if c = 'e' ∨ c = 'E' then
        let (en, rest') := match rest with
          | '-' :: r => (true, r)
          | '+' :: r => (false, r)
          | _ => (false, rest)
        match parseDigits rest' with
        | some (v, _, r) => (true, en, v, r)
        | none => (false, false, 0, c :: rest)
      else (true, false, 0, c :: rest)
    | [] => (true, false, 0, [])
  if !expOk then none else
  let mag : ℚ := ((ip : ℚ) + (fracV : ℚ) / 10 ^ fd) * (if expNeg then (10 : ℚ) ^ expV |>.inv else (10 : ℚ) ^ expV)
  some ((if neg then -mag else mag), s)

/-- Does the input start with the given keyword? -/
def stripKeyword (kw : List Char) (s : List Char) : Option (List Char) :=
  if kw.isPrefixOf s then some (s.drop kw.length) else none

mutual

/-- Parse one JSON value.  `fuel` decreases at each nesting step. -/
def parseJsonValue : Nat → List Char → Option (Json × List Char)
  | 0, _ => none
  | fuel + 1, s =>
    let s := skipWs s
    match s with
    | [] => none
    | c :: cs =>
      if c = openBrace then
        parseJsonMembers fuel cs []
      else if c = '[' then
        parseJsonElements fuel cs []
      else if c = '"' then
        (parseJsonStringAux cs []).map (fun (str, rest) => (Json.str str, rest))
      else if c = 't' then
        (stripKeyword ['t', 'r', 'u', 'e'] s).map (fun rest => (Json.bool true, rest))
      else if c = 'f' then
        (stripKeyword ['f', 'a', 'l', 's', 'e'] s).map (fun rest => (Json.bool false, rest))
      else if c = 'n' then
        (stripKeyword ['n', 'u', 'l', 'l'] s).map (fun rest => (Json.null, rest))
      else if c = '-' ∨ c.isDigit then
        (parseJsonNumber s).map (fun (q, rest) => (Json.num q, rest))
      else none

/-- Parse the members of an object (after the opening brace). -/
def parseJsonMembers : Nat → List Char → List (String × Json) → Option (Json × List Char)
  | 0, _, _ => none
  | fuel + 1, s, acc =>
    let s := skipWs s
    match s with
    | [] => none
    | c :: cs =>
      if c = closeBrace then
        if acc.isEmpty then some (Json.obj [], cs) else none
      else if c = '"' then
        match parseJsonStringAux cs [] with
        | none => none
        | some (key, rest) =>
          match skipWs rest with
          | ':' :: rest' =>
            match parseJsonValue fuel rest' with
            | none => none
            | some (v, rest'') =>
              match skipWs rest'' with
              | ',' :: rest''' => parseJsonMembers fuel rest''' ((key, v) :: acc)
              | d :: rest''' =>
                if d = closeBrace then some (Json.obj ((key, v) :: acc).reverse, rest''')
                else none
              | [] => none
          | _ => none
      else none

/-- Parse the elements of an array (after the opening bracket). -/
def parseJsonElements : Nat → List Char → List Json → Option (Json × List Char)
  | 0, _, _ => none
  | fuel + 1, s, acc =>
    let s := skipWs s
    match s with
    | [] => none
    | ']' :: cs =>
      if acc.isEmpty then some (Json.arr [], cs) else none
    | s' =>
      match parseJsonValue fuel s' with
      | none => none
      | some (v, rest) =>
        match skipWs rest with
        | ',' :: rest' => parseJsonElements fuel rest' (v :: acc)
        | ']' :: rest' => some (Json.arr (v :: acc).reverse, rest')
        | _ => none

end

/-- Model of `JSON.parse`: the whole input (up to surrounding whitespace)
must be a single JSON value. -/
def jsonParse (s : List Char) : Option Json :=
  match parseJsonValue (s.length + 1) s with
  | some (j, rest) => if (skipWs rest).isEmpty then some j else none
  | none => none

/-! ## The extraction regex

Both parsers run `response.match(/.[\s\S]*./)` with a brace at either end
of the pattern: a greedy match that spans from the first `{` of the input
to the last `}` (and fails when no `}` follows the first `{`). -/

/-- Model of the greedy brace regex used by `parsePlanResponse` and
`parseBlindEvaluation`: the segment of `s` from the first `{` through the
last `}`, or `none` when no such segment exists. -/
def extractJsonBlock (s : List Char) : Option (List Char) :=
  let t := s.dropWhile (fun c => c ≠ openBrace)
  let u := (t.reverse.dropWhile (fun c => c ≠ closeBrace)).reverse
  if u.isEmpty then none else some u

/-- `String.prototype.toLowerCase`, character-wise (the data handled here
is ASCII, where this matches JavaScript). -/
def strToLower (s : String) : String :=
  String.mk (s.data.map Char.toLower)

/-- Split a character list at every separator (JavaScript
`String.prototype.split` semantics: consecutive separators produce empty
fragments, and the empty string yields one empty fragment). -/
def splitOnPredAux (p : Char → Bool) : List Char → List Char → List String
  | [], acc => [String.mk acc.reverse]
  | c :: cs, acc =>
    if p c then String.mk acc.reverse :: splitOnPredAux p cs []
    else splitOnPredAux p cs (c :: acc)

/-- Split a string at every character satisfying `p`. -/
def splitOnPred (p : Char → Bool) (s : String) : List String :=
  splitOnPredAux p s.data []

/-! ## Core data model (src/types/index.ts) -/

/-- `'better' | 'same' | 'worse'` of `BlindEvaluation.vs_previous`. -/
inductive VsPrevious where
  | better : VsPrevious
  | same : VsPrevious
  | worse : VsPrevious
deriving DecidableEq, Repr

/-- `'closer' | 'same' | 'farther'` of `BlindEvaluation.vs_goal`. -/
inductive VsGoal where
  | closer : VsGoal
  | same : VsGoal
  | farther : VsGoal
deriving DecidableEq, Repr

/-- Task priority. -/
inductive TaskPriority where
  | high : TaskPriority
  | medium : TaskPriority
  | low : TaskPriority
deriving DecidableEq, Repr

/-- Task status (the core only ever creates `pending`). -/
inductive TaskStatus where
  | pending : TaskStatus
  | in_progress : TaskStatus
  | completed : TaskStatus
deriving DecidableEq, Repr

/-- Round phase. -/
inductive RoundPhase where
  | ARCHITECT : RoundPhase
  | REFINER : RoundPhase
deriving DecidableEq, Repr

/-- Termination reason. -/
inductive TerminationReason where
  | stability_achieved : TerminationReason
  | max_rounds_reached : TerminationReason
  | contradiction_trend_up : TerminationReason
  | goal_diverging : TerminationReason
  | task_complete : TerminationReason
  | «continue» : TerminationReason
deriving DecidableEq, Repr

/-- `PlanTask`. -/
structure PlanTask where
  id : String
  description : String
  priority : TaskPriority
  status : TaskStatus
  dependencies : List String
deriving DecidableEq, Repr

/-- `Plan`; `created_at` is the `Date.now()` timestamp. -/
structure Plan where
  id : String
  goals : List String
  tasks : List PlanTask
  constraints : List String
  created_at : Nat
deriving DecidableEq, Repr

/-- `BlindEvaluation`. -/
structure BlindEvaluation where
  vs_previous : VsPrevious
  vs_goal : VsGoal
  contradictions : List String
  missing : List String
  risks : List String
deriving DecidableEq, Repr

/-- `StabilityMetrics`; every component is a JavaScript number, modelled ℚ. -/
structure StabilityMetrics where
  contradiction_ratio : ℚ
  decision_reuse_rate : ℚ
  plan_similarity : ℚ
  goal_convergence : ℚ
  overall_stability : ℚ
deriving DecidableEq, Repr

/-- `TerminationDecision`. -/
structure TerminationDecision where
  should_terminate : Bool
  reason : TerminationReason
  confidence : ℚ
deriving DecidableEq, Repr

/-- `LockedStructure`. -/
structure LockedStructure where
  goals : List String
  core_decisions : List String
  locked_at_round : Nat
deriving DecidableEq, Repr

/-- `RoundState`. -/
structure RoundState where
  number : Nat
  phase : RoundPhase
  plan : Option Plan
  evaluation : Option BlindEvaluation
  stability : Option StabilityMetrics
  locked_structure : Option LockedStructure
deriving DecidableEq, Repr

/-- `ExecutionResult`. -/
structure ExecutionResult where
  success : Bool
  output : String
  round : Nat
  stability : ℚ
  terminated : Bool
  termination_reason : Option TerminationReason
deriving DecidableEq, Repr

/-! ## Blind judge (src/services/blindJudge.ts) -/

namespace BlindJudge

/-- `BlindJudgeInput`. -/
structure BlindJudgeInput where
  currentPlan : Plan
  previousPlan : Option Plan
  goal : String
  lockedStructure : Option LockedStructure

/-- `validateComparison`: a string member of `valid` is kept, anything else
falls back to the middle option `valid[1]`. -/
def validateComparison (value : Option Json) (valid : List String) : String :=
  match value with
  | some (Json.str s) => if valid.contains s then s else (valid.getD 1 "")
  | _ => valid.getD 1 ""

/-- Bridge from the validated string to the `vs_previous` union type
(lossless: `validateComparison` only returns members of the valid set). -/
def vsPreviousOfString : String → VsPrevious
  | "better" => VsPrevious.better
  | "worse" => VsPrevious.worse
  | _ => VsPrevious.same

/-- Bridge from the validated string to the `vs_goal` union type. -/
def vsGoalOfString : String → VsGoal
  | "closer" => VsGoal.closer
  | "farther" => VsGoal.farther
  | _ => VsGoal.same

/-- Keep a string entry of a parsed JSON array. -/
def jsAsString : Json → Option String
  | Json.str s => some s
  | _ => none

/-- `validateStringArray` of blindJudge: string entries only, sliced to the
first 10. -/
def validateStringArray (value : Option Json) : List String :=
  match value with
  | some (Json.arr xs) => (xs.filterMap jsAsString).take 10
  | _ => []

/-- The conservative default evaluation returned on any parse exception. -/
def conservativeDefaultEvaluation : BlindEvaluation :=
  { vs_previous := VsPrevious.same
    vs_goal := VsGoal.same
    contradictions := ["Evaluation parsing failed"]
    missing := []
    risks := ["Unable to properly evaluate plan"] }

/-- `parseBlindEvaluation`: extract the brace segment, `JSON.parse` it and
validate the fields; any exception (no match, syntax error, or field access
on a parsed `null`) yields the conservative default. -/
def parseBlindEvaluation (response : String) : BlindEvaluation :=
  match extractJsonBlock response.data with
  | none => conservativeDefaultEvaluation
  | some block =>
    match jsonParse block with
    | none => conservativeDefaultEvaluation
    | some Json.null => conservativeDefaultEvaluation
    | some j =>
      { vs_previous := vsPreviousOfString
          (validateComparison (jsGetField j "vs_previous") ["better", "same", "worse"])
        vs_goal := vsGoalOfString
          (validateComparison (jsGetField j "vs_goal") ["closer", "same", "farther"])
        contradictions := validateStringArray (jsGetField j "contradictions")
        missing := validateStringArray (jsGetField j "missing")
        risks := validateStringArray (jsGetField j "risks") }

end BlindJudge

/-! ## Planner (src/services/planner.ts) -/

namespace Planner

/-- `PlannerInput`. -/
structure PlannerInput where
  goal : String
  context : String
  previousPlan : Option Plan
  lockedStructure : Option LockedStructure
  phase : RoundPhase
  constraints : List String

/-- `validateStringArray` of planner: string entries only (no truncation). -/
def validateStringArray (value : Option Json) : List String :=
  match value with
  | some (Json.arr xs) => xs.filterMap BlindJudge.jsAsString
  | _ => []

/-- `validatePriority`. -/
def validatePriority (value : Option Json) : TaskPriority :=
  match value with
  | some (Json.str "high") => TaskPriority.high
  | some (Json.str "medium") => TaskPriority.medium
  | some (Json.str "low") => TaskPriority.low
  | _ => TaskPriority.medium

/-- One entry of `parseTasks`' map: property access on a `null` array entry
throws a `TypeError` (any other entry yields `undefined` fields, which the
defaults absorb). -/
def parseTask (now i : Nat) (t : Json) : Except String PlanTask :=
  match t with
  | Json.null => Except.error "TypeError: Cannot read properties of null (reading 'description')"
  | _ => Except.ok
      { id := "task_" ++ toString i ++ "_" ++ toString now
        description :=
          match jsGetField t "description" with
          | some d => if jsTruthy d then jsToString d else "Unknown task"
          | none => "Unknown task"
        priority := validatePriority (jsGetField t "priority")
        status := TaskStatus.pending
        dependencies := validateStringArray (jsGetField t "dependencies") }

/-- The indexed map of `parseTasks` (the thrown `TypeError` of the first
`null` entry propagates). -/
def parseTasksAux (now : Nat) : Nat → List Json → Except String (List PlanTask)
  | _, [] => Except.ok []
  | i, t :: rest => do
    let task ← parseTask now i t
    let tail ← parseTasksAux now (i + 1) rest
    Except.ok (task :: tail)

/-- `parseTasks`: a non-array yields the empty task list. -/
def parseTasks (now : Nat) (value : Option Json) : Except String (List PlanTask) :=
  match value with
  | some (Json.arr xs) => parseTasksAux now 0 xs
  | _ => Except.ok []

/-- `parsePlanResponse`: extract the brace segment, `JSON.parse` it, then
assemble the `Plan`; every failure is rethrown as a `PlanParseError`
(`Error: Plan parsing failed: …`).  Inner host-engine messages are fixed
representative strings. -/
def parsePlanResponse (now : Nat) (response : String) : Except String Plan :=
  match extractJsonBlock response.data with
  | none => Except.error "Error: Plan parsing failed: Error: No JSON found in response"
  | some block =>
    match jsonParse block with
    | none => Except.error "Error: Plan parsing failed: SyntaxError: Unexpected token in JSON"
    | some Json.null =>
      Except.error "Error: Plan parsing failed: TypeError: Cannot read properties of null (reading 'goals')"
    | some j =>
      match parseTasks now (jsGetField j "tasks") with
      | Except.error e => Except.error ("Error: Plan parsing failed: " ++ e)
      | Except.ok tasks =>
        Except.ok
          { id := "plan_" ++ toString now
            goals := validateStringArray (jsGetField j "goals")
            tasks := tasks
            constraints := validateStringArray (jsGetField j "constraints")
            created_at := now }

/-- `createLockedStructure`: goals and constraints of the architect plan. -/
def createLockedStructure (plan : Plan) (round : Nat) : LockedStructure :=
  { goals := plan.goals
    core_decisions := plan.constraints
    locked_at_round := round }

/-- Lower-case hex digit. -/
def hexDigit (n : Nat) : Char :=
  if n < 10 then Char.ofNat (48 + n) else Char.ofNat (87 + n)

/-- JSON string escaping as performed by `JSON.stringify`. -/
def jsonEscapeChar (c : Char) : String :=
  if c = '"' then "\\\""
  else if c = '\\' then "\\\\"
  else if c = '\n' then "\\n"
  else if c = Char.ofNat 13 then "\\r"
  else if c = '\t' then "\\t"
  else if c = Char.ofNat 8 then "\\b"
  else if c = Char.ofNat 12 then "\\f"
  else if c.toNat < 32 then
    "\\u00" ++ String.mk [hexDigit (c.toNat / 16), hexDigit (c.toNat % 16)]
  else String.singleton c

/-- `JSON.stringify` of a string. -/
def stringifyString (s : String) : String :=
  "\"" ++ String.join (s.data.map jsonEscapeChar) ++ "\""

/-- `JSON.stringify` of a string array. -/
def stringifyStringList (l : List String) : String :=
  "[" ++ String.intercalate "," (l.map stringifyString) ++ "]"

/-- Serialized task priority. -/
def priorityString : TaskPriority → String
  | TaskPriority.high => "high"
  | TaskPriority.medium => "medium"
  | TaskPriority.low => "low"

/-- Serialized task status. -/
def statusString : TaskStatus → String
  | TaskStatus.pending => "pending"
  | TaskStatus.in_progress => "in_progress"
  | TaskStatus.completed => "completed"

/-- `JSON.stringify` of a `PlanTask` (keys in construction order). -/
def stringifyTask (t : PlanTask) : String :=
  "\x7b\"id\":" ++ stringifyString t.id ++
  ",\"description\":" ++ stringifyString t.description ++
  ",\"priority\":" ++ stringifyString (priorityString t.priority) ++
  ",\"status\":" ++ stringifyString (statusString t.status) ++
  ",\"dependencies\":" ++ stringifyStringList t.dependencies ++ "\x7d"

/-- Serialization of the `created_at` date.  `JSON.stringify` renders a
`Date` through `toISOString`; the calendar rendering of the timestamp is
modelled as its decimal digit string (every property proved about the
serialized plan is insensitive to this rendering, which contains only
digits, punctuation and the letters `t`/`z` on either reading). -/
def dateString (ts : Nat) : String :=
  toString ts

/-- `JSON.stringify(plan)` (keys in construction order). -/
def stringifyPlan (p : Plan) : String :=
  "\x7b\"id\":" ++ stringifyString p.id ++
  ",\"goals\":" ++ stringifyStringList p.goals ++
  ",\"tasks\":[" ++ String.intercalate "," (p.tasks.map stringifyTask) ++ "]" ++
  ",\"constraints\":" ++ stringifyStringList p.constraints ++
  ",\"created_at\":" ++ stringifyString (dateString p.created_at) ++ "\x7d"

/-- Infix test on character lists. -/
def listIsInfixOf : List Char → List Char → Bool
  | needle, [] => needle.isEmpty
  | needle, c :: rest => needle.isPrefixOf (c :: rest) || listIsInfixOf needle rest

/-- Substring test (`String.prototype.includes`). -/
def strIncludes (hay needle : String) : Bool :=
  listIsInfixOf needle.data hay.data

/-- Result of `validateAgainstLockedStructure`. -/
structure ValidationResult where
  valid : Bool
  violations : List String
deriving DecidableEq, Repr

/-- The goal-preservation check: each locked goal must appear
case-insensitively among the plan's goals. -/
def goalViolation (plan : Plan) (lockedGoal : String) : Option String :=
  if (plan.goals.map strToLower).contains (strToLower lockedGoal) then none
  else some ("Locked goal removed: \"" ++ lockedGoal ++ "\"")

/-- The keyword tokens of a core decision: split on the space character,
keep tokens longer than 4. -/
def decisionKeywords (decision : String) : List String :=
  (splitOnPred (fun c => c = ' ') (strToLower decision)).filter (fun w => 4 < w.length)

/-- The keyword-coverage check of one core decision against the serialized
lower-cased plan. -/
def decisionViolation (planText : String) (decision : String) : Option String :=
  let keywords := decisionKeywords decision
  let matchCount := (keywords.filter (fun kw => strIncludes planText kw)).length
  if (matchCount : ℚ) < (keywords.length : ℚ) * (5 / 10) then
    some ("Core decision may be violated: \"" ++ decision ++ "\"")
  else none

/-- `validateAgainstLockedStructure`: goal violations (in locked-goal
order) followed by core-decision violations; valid iff no violation. -/
def validateAgainstLockedStructure (plan : Plan) (lockedStructure : LockedStructure) :
    ValidationResult :=
  let goalViolations := lockedStructure.goals.filterMap (goalViolation plan)
  let planText := strToLower (stringifyPlan plan)
  let decisionViolations := lockedStructure.core_decisions.filterMap (decisionViolation planText)
  let violations := goalViolations ++ decisionViolations
  { valid := violations.isEmpty, violations := violations }

end Planner

namespace Planner

/-- `createArchitectPrompt` (round 1). -/
def createArchitectPrompt (input : PlannerInput) : String :=
  String.intercalate "\n"
    [ "You are an ARCHITECT creating the foundational structure for a plan."
    , "IMPORTANT: The structure you create will be LOCKED and cannot be changed in future rounds."
    , "Focus on getting the core decisions RIGHT."
    , ""
    , "## Goal"
    , input.goal
    , ""
    , "## Context"
    , input.context
    , ""
    , if input.constraints.length > 0 then
        "## Constraints\n" ++ String.intercalate "\n" input.constraints
      else ""
    , ""
    , "## Your Task"
    , "Create a comprehensive plan with:"
    , "1. Clear, measurable GOALS (these will be locked)"
    , "2. Well-defined TASKS with priorities"
    , "3. Core CONSTRAINTS and decisions"
    , ""
    , "Respond in JSON format:"
    , "\x7b"
    , "  \"goals\": [\"goal1\", \"goal2\", ...],"
    , "  \"tasks\": ["
    , "    \x7b"
    , "      \"description\": \"task description\","
    , "      \"priority\": \"high\" | \"medium\" | \"low\","
    , "      \"dependencies\": [\"other task descriptions\"]"
    , "    \x7d"
    , "  ],"
    , "  \"constraints\": [\"constraint1\", \"constraint2\", ...]"
    , "\x7d"
    , ""
    , "Focus on correctness over completeness - this structure will be locked." ]

/-- `createRefinerPrompt` (round 2+); throws when the locked structure or
the previous plan is missing. -/
def createRefinerPrompt (input : PlannerInput) : Except String String :=
  match input.lockedStructure, input.previousPlan with
  | some lockedStructure, some previousPlan =>
    Except.ok (String.intercalate "\n"
      [ "You are a REFINER improving an existing plan."
      , "CRITICAL: You CANNOT change the locked structure. Only refine details."
      , ""
      , "## Goal"
      , input.goal
      , ""
      , "## Context"
      , input.context
      , ""
      , "## LOCKED STRUCTURE (DO NOT CHANGE)"
      , "Goals: " ++ String.intercalate ", " lockedStructure.goals
      , "Core Decisions: " ++ String.intercalate ", " lockedStructure.core_decisions
      , ""
      , "## Previous Plan"
      , "Goals: " ++ String.intercalate ", " previousPlan.goals
      , "Tasks:"
      , String.intercalate "\n"
          (previousPlan.tasks.map (fun t =>
            "- [" ++ priorityString t.priority ++ "] " ++ t.description))
      , "Constraints: " ++ String.intercalate ", " previousPlan.constraints
      , ""
      , if input.constraints.length > 0 then
          "## Additional Constraints\n" ++ String.intercalate "\n" input.constraints
        else ""
      , ""
      , "## Your Task"
      , "REFINE the plan by:"
      , "1. Keeping ALL locked goals exactly as is"
      , "2. Improving task descriptions and priorities"
      , "3. Adding missing implementation details"
      , "4. Clarifying dependencies"
      , ""
      , "You MAY:"
      , "- Add new tasks (that support locked goals)"
      , "- Improve task descriptions"
      , "- Adjust task priorities"
      , "- Add clarifying constraints"
      , ""
      , "You MUST NOT:"
      , "- Change locked goals"
      , "- Remove locked constraints"
      , "- Fundamentally alter the approach"
      , ""
      , "Respond in JSON format:"
      , "\x7b"
      , "  \"goals\": [\"must match locked goals exactly\"],"
      , "  \"tasks\": ["
      , "    \x7b"
      , "      \"description\": \"refined task description\","
      , "      \"priority\": \"high\" | \"medium\" | \"low\","
      , "      \"dependencies\": [\"other task descriptions\"]"
      , "    \x7d"
      , "  ],"
      , "  \"constraints\": [\"original + any clarifying constraints\"]"
      , "\x7d" ])
  | _, _ => Except.error "Error: Refiner phase requires locked structure and previous plan"

/-- `createPlanSummary`. -/
def createPlanSummary (plan : Plan) : List String :=
  let highTasks := plan.tasks.filter (fun t => t.priority = TaskPriority.high)
  let mediumTasks := plan.tasks.filter (fun t => t.priority = TaskPriority.medium)
  let lowTasks := plan.tasks.filter (fun t => t.priority = TaskPriority.low)
  [ "📋 PLAN SUMMARY", "─────────────────", "\n🎯 Goals:" ]
  ++ (plan.goals.enum.map (fun gi => "  " ++ toString (gi.1 + 1) ++ ". " ++ gi.2))
  ++ [ "\n📝 Tasks:" ]
  ++ (if highTasks.length > 0 then
        "  🔴 High Priority:" :: highTasks.map (fun t => "    - " ++ t.description)
      else [])
  ++ (if mediumTasks.length > 0 then
        "  🟡 Medium Priority:" :: mediumTasks.map (fun t => "    - " ++ t.description)
      else [])
  ++ (if lowTasks.length > 0 then
        "  🟢 Low Priority:" :: lowTasks.map (fun t => "    - " ++ t.description)
      else [])
  ++ [ "\n⚠️ Constraints:" ]
  ++ plan.constraints.map (fun c => "  - " ++ c)

end Planner

/-! ## Blind-judge prompt (src/services/blindJudge.ts) -/

namespace BlindJudge

/-- `createBlindEvaluationPrompt`. -/
def createBlindEvaluationPrompt (input : BlindJudgeInput) : String :=
  let base := String.intercalate "\n"
    [ "You are a blind judge evaluating a plan. You must provide QUALITATIVE assessments only."
    , "DO NOT provide numeric scores - this prevents gaming of the evaluation system."
    , ""
    , "## Goal"
    , input.goal
    , ""
    , "## Current Plan"
    , "Goals: " ++ String.intercalate ", " input.currentPlan.goals
    , "Tasks: " ++ String.intercalate "\n- " (input.currentPlan.tasks.map (fun t => t.description))
    , "Constraints: " ++ String.intercalate ", " input.currentPlan.constraints
    , "" ]
  let base := base ++
    (match input.previousPlan with
     | some previousPlan => String.intercalate "\n"
        [ ""
        , "## Previous Plan (for comparison)"
        , "Goals: " ++ String.intercalate ", " previousPlan.goals
        , "Tasks: " ++ String.intercalate "\n- " (previousPlan.tasks.map (fun t => t.description))
        , "Constraints: " ++ String.intercalate ", " previousPlan.constraints
        , "" ]
     | none => "")
  let base := base ++
    (match input.lockedStructure with
     | some lockedStructure => String.intercalate "\n"
        [ ""
        , "## Locked Structure (CANNOT be changed)"
        , "Goals: " ++ String.intercalate ", " lockedStructure.goals
        , "Core Decisions: " ++ String.intercalate ", " lockedStructure.core_decisions
        , "Locked at Round: " ++ toString lockedStructure.locked_at_round
        , "" ]
     | none => "")
  base ++ String.intercalate "\n"
    [ ""
    , "## Evaluation Instructions"
    , ""
    , "Provide your evaluation in the following JSON format ONLY:"
    , "\x7b"
    , "  \"vs_previous\": \"better\" | \"same\" | \"worse\",  // Compared to previous plan"
    , "  \"vs_goal\": \"closer\" | \"same\" | \"farther\",    // Progress toward goal"
    , "  \"contradictions\": [\"list of logical contradictions\"],"
    , "  \"missing\": [\"list of missing elements\"],"
    , "  \"risks\": [\"list of identified risks\"]"
    , "\x7d"
    , ""
    , "DO NOT include any numeric scores or ratings. Respond with JSON only." ]

end BlindJudge

/-! ## Stability tracker (src/services/stabilityTracker.ts) -/

namespace Stability

/-- Stability weights. -/
structure StabilityWeights where
  contradictionRatio : ℚ
  decisionReuseRate : ℚ
  planSimilarity : ℚ
  goalConvergence : ℚ
deriving DecidableEq, Repr

/-- `StabilityConfig`. -/
structure StabilityConfig where
  autoTerminateThreshold : ℚ
  warningThreshold : ℚ
  weights : StabilityWeights
deriving DecidableEq, Repr

/-- The default stability configuration (the orchestrator always uses it). -/
def stabilityDefaultConfig : StabilityConfig :=
  { autoTerminateThreshold := 85 / 100
    warningThreshold := 70 / 100
    weights :=
      { contradictionRatio := 30 / 100
        decisionReuseRate := 25 / 100
        planSimilarity := 25 / 100
        goalConvergence := 20 / 100 } }

/-- The overlapping bigrams of a string (as character pairs; the source
stores two-character slices, which is equivalent). -/
def getBigrams : List Char → List (Char × Char)
  | a :: b :: rest => (a, b) :: getBigrams (b :: rest)
  | _ => []

/-- Multiset-intersection size: the sum over distinct bigrams of the
minimum of the two occurrence counts, computed by erasing one matched
occurrence at a time (as the source does with its two count maps). -/
def bigramIntersectionSize : List (Char × Char) → List (Char × Char) → Nat
  | [], _ => 0
  | b :: rest, other =>
    if other.contains b then bigramIntersectionSize rest (other.erase b) + 1
    else bigramIntersectionSize rest other

/-- `calculateStringSimilarity` (Dice coefficient over bigrams). -/
def calculateStringSimilarity (str1 str2 : String) : ℚ :=
  let s1 := strToLower str1
  let s2 := strToLower str2
  if s1 = s2 then 1
  else if s1.length < 2 ∨ s2.length < 2 then 0
  else
    (2 * (bigramIntersectionSize (getBigrams s1.data) (getBigrams s2.data) : ℚ)) /
      ((s1.length : ℚ) + (s2.length : ℚ) - 2)

/-- `calculateSetSimilarity` (Jaccard).  The JavaScript `Set`s built from
the two lists are modelled by deduplication: only membership and sizes are
used. -/
def calculateSetSimilarity (a b : List String) : ℚ :=
  let setA := a.dedup
  let setB := b.dedup
  if setA.length = 0 ∧ setB.length = 0 then 1
  else if setA.length = 0 ∨ setB.length = 0 then 0
  else
    let intersection := setA.filter (fun x => setB.contains x)
    let union := (a ++ b).dedup
    (intersection.length : ℚ) / (union.length : ℚ)

/-- The flattened decision list of a plan: goals, constraints and
lower-cased task descriptions. -/
def decisionsOf (p : Plan) : List String :=
  p.goals ++ p.constraints ++ p.tasks.map (fun t => strToLower t.description)

/-- `calculateDecisionReuseRate`: the fraction of current decisions that
fuzzily (bigram similarity > 0.7) match some previous decision; neutral 0.5
when either plan is missing. -/
def calculateDecisionReuseRate (currentPlan previousPlan : Option Plan) : ℚ :=
  match currentPlan, previousPlan with
  | some current, some previous =>
    let previousDecisions := decisionsOf previous
    let currentDecisions := decisionsOf current
    if currentDecisions.length = 0 then 0
    else
      let reused := currentDecisions.filter (fun d =>
        previousDecisions.any (fun p => (7 : ℚ) / 10 < calculateStringSimilarity d p))
      (reused.length : ℚ) / (currentDecisions.length : ℚ)
  | _, _ => 1 / 2

/-- `calculatePlanSimilarity`: mean of goal Jaccard, task-count similarity
and constraint Jaccard; neutral 0.5 when either plan is missing. -/
def calculatePlanSimilarity (currentPlan previousPlan : Option Plan) : ℚ :=
  match currentPlan, previousPlan with
  | some current, some previous =>
    let goalSimilarity := calculateSetSimilarity current.goals previous.goals
    let taskCountSimilarity : ℚ :=
      1 - |(current.tasks.length : ℚ) - (previous.tasks.length : ℚ)| /
        (max (max (current.tasks.length : ℚ) (previous.tasks.length : ℚ)) 1)
    let constraintSimilarity := calculateSetSimilarity current.constraints previous.constraints
    (goalSimilarity + taskCountSimilarity + constraintSimilarity) / 3
  | _, _ => 1 / 2

/-- The `vsGoalMap` scores. -/
def vsGoalScore : VsGoal → ℚ
  | VsGoal.closer => 1
  | VsGoal.same => 1 / 2
  | VsGoal.farther => 0

/-- The `vsPreviousMap` scores. -/
def vsPreviousScore : VsPrevious → ℚ
  | VsPrevious.better => 1
  | VsPrevious.same => 1 / 2
  | VsPrevious.worse => 0

/-- `calculateGoalConvergence`. -/
def calculateGoalConvergence (evaluation : BlindEvaluation) : ℚ :=
  vsGoalScore evaluation.vs_goal * (7 / 10) + vsPreviousScore evaluation.vs_previous * (3 / 10)

/-- `Math.round(x·100)/100` (JavaScript rounds half toward +∞). -/
def roundTwoDecimals (x : ℚ) : ℚ :=
  ((⌊x * 100 + 1 / 2⌋ : ℤ) : ℚ) / 100

/-- `calculateStability`. -/
def calculateStability (currentRound : RoundState) (previousRound : Option RoundState)
    (evaluation : BlindEvaluation) (config : StabilityConfig) : StabilityMetrics :=
  let weights := config.weights
  let contradictionRatio : ℚ := min ((evaluation.contradictions.length : ℚ) / 5) 1
  let decisionReuseRate :=
    calculateDecisionReuseRate currentRound.plan (previousRound.bind (fun r => r.plan))
  let planSimilarity :=
    calculatePlanSimilarity currentRound.plan (previousRound.bind (fun r => r.plan))
  let goalConvergence := calculateGoalConvergence evaluation
  let overallStability :=
    (1 - contradictionRatio) * weights.contradictionRatio +
    decisionReuseRate * weights.decisionReuseRate +
    planSimilarity * weights.planSimilarity +
    goalConvergence * weights.goalConvergence
  { contradiction_ratio := contradictionRatio
    decision_reuse_rate := decisionReuseRate
    plan_similarity := planSimilarity
    goal_convergence := goalConvergence
    overall_stability := roundTwoDecimals overallStability }

/-- `x.toFixed(1)` for the nonnegative values displayed by the breakdown. -/
def toFixed1 (q : ℚ) : String :=
  let n : ℤ := ⌊q * 10 + 1 / 2⌋
  toString (n / 10) ++ "." ++ toString (n % 10)

/-- `createStabilityBreakdown`. -/
def createStabilityBreakdown (metrics : StabilityMetrics) : List String :=
  [ "Contradiction Ratio: " ++ toFixed1 ((1 - metrics.contradiction_ratio) * 100) ++ "%"
  , "Decision Reuse: " ++ toFixed1 (metrics.decision_reuse_rate * 100) ++ "%"
  , "Plan Similarity: " ++ toFixed1 (metrics.plan_similarity * 100) ++ "%"
  , "Goal Convergence: " ++ toFixed1 (metrics.goal_convergence * 100) ++ "%"
  , "─────────────────"
  , "Overall Stability: " ++ toFixed1 (metrics.overall_stability * 100) ++ "%" ]

end Stability

/-! ## Decision engine (src/services/decisionEngine.ts) -/

namespace Decision

/-- `DecisionEngineConfig`. -/
structure DecisionEngineConfig where
  maxRounds : Nat
  stabilityThreshold : ℚ
  goalDivergenceLimit : Nat
deriving DecidableEq, Repr

/-- The default decision-engine configuration. -/
def decisionDefaultConfig : DecisionEngineConfig :=
  { maxRounds := 3, stabilityThreshold := 85 / 100, goalDivergenceLimit := 2 }

/-- `DecisionContext`. -/
structure DecisionContext where
  currentRound : RoundState
  roundHistory : List RoundState
  latestEvaluation : BlindEvaluation
  latestStability : StabilityMetrics

/-- `countConsecutiveGoalDivergence`: the longest suffix of the evaluation
list on which `vs_goal = farther`. -/
def countConsecutiveGoalDivergence (evaluations : List BlindEvaluation) : Nat :=
  (evaluations.reverse.takeWhile (fun e => decide (e.vs_goal = VsGoal.farther))).length

/-- Contradiction count of a round (`evaluation?.contradictions.length ?? 0`). -/
def contradictionCount (round : RoundState) : Nat :=
  match round.evaluation with
  | some e => e.contradictions.length
  | none => 0

/-- One step of the `isContradictionTrendUp` loop: once `increasing` has
flipped to `false` the loop has broken and the accumulator is frozen. -/
def trendStep (acc : Bool × Nat) (round : RoundState) : Bool × Nat :=
  if acc.1 then
    let count := contradictionCount round
    if count < acc.2 then (false, acc.2) else (true, count)
  else acc

/-- `isContradictionTrendUp`: over the two most recent archived rounds,
counts must never decrease, and the current round's count must exceed the
last archived count; short histories (< 2 archived rounds) never fire. -/
def isContradictionTrendUp (roundHistory : List RoundState) (currentRound : RoundState) : Bool :=
  if roundHistory.length < 2 then false
  else
    let recentHistory := roundHistory.drop (roundHistory.length - 2)
    let currentContradictions := contradictionCount currentRound
    let result := recentHistory.foldl trendStep (true, 0)
    result.1 && decide (result.2 < currentContradictions)

/-- `makeTerminationDecision`: the six prioritized rules. -/
def makeTerminationDecision (context : DecisionContext) (config : DecisionEngineConfig) :
    TerminationDecision :=
  -- Priority 1: task complete
  if context.latestEvaluation.missing.length = 0 ∧
      context.latestEvaluation.contradictions.length = 0 then
    { should_terminate := true, reason := TerminationReason.task_complete, confidence := 95 / 100 }
  -- Priority 2: stability achieved
  else if config.stabilityThreshold ≤ context.latestStability.overall_stability then
    { should_terminate := true, reason := TerminationReason.stability_achieved
      confidence := context.latestStability.overall_stability }
  -- Priority 3: max rounds reached
  else if config.maxRounds ≤ context.currentRound.number then
    { should_terminate := true, reason := TerminationReason.max_rounds_reached, confidence := 1 }
  -- Priority 4: goal diverging
  else if config.goalDivergenceLimit ≤ countConsecutiveGoalDivergence
      ((context.roundHistory ++ [context.currentRound]).filterMap (fun r => r.evaluation)) then
    { should_terminate := true, reason := TerminationReason.goal_diverging, confidence := 85 / 100 }
  -- Priority 5: contradiction trend up
  else if isContradictionTrendUp context.roundHistory context.currentRound then
    { should_terminate := true, reason := TerminationReason.contradiction_trend_up
      confidence := 75 / 100 }
  -- Continue
  else
    { should_terminate := false, reason := TerminationReason.«continue»
      confidence := 1 - context.latestStability.overall_stability }

end Decision

/-! ## Orchestrator (src/services/orchestrator.ts) -/

namespace Orchestration

open Planner BlindJudge Stability Decision

/-- `OrchestratorConfig` (hooks omitted; they only observe). -/
structure OrchestratorConfig where
  maxRounds : Nat
  stabilityThreshold : ℚ
deriving DecidableEq, Repr

/-- The default orchestrator configuration. -/
def orchestratorDefaultConfig : OrchestratorConfig :=
  { maxRounds := 3, stabilityThreshold := 85 / 100 }

/-- `RoundResult`. -/
structure RoundResult where
  round : Nat
  plan : Plan
  evaluation : BlindEvaluation
  stability : StabilityMetrics
  decision : TerminationDecision
deriving DecidableEq, Repr

/-- `OrchestratorState`. -/
structure OrchestratorState where
  currentRound : RoundState
  roundHistory : List RoundState
  goal : String
  context : String
  isRunning : Bool
  lastResult : Option ExecutionResult
deriving DecidableEq, Repr

/-- The model of the injected `aiProvider`: from the call slot
(2·(round−1) for the plan call, 2·(round−1)+1 for the evaluation call) and
the prompt to a response or a thrown error. -/
def AiProvider : Type :=
  Nat → String → Except String String

/-- The state `execute` starts from (`createInitialState` with the goal,
context and `isRunning` flag assigned by `execute`). -/
def createInitialState (goal context : String) : OrchestratorState :=
  { currentRound :=
      { number := 0, phase := RoundPhase.ARCHITECT, plan := none, evaluation := none
        stability := none, locked_structure := none }
    roundHistory := []
    goal := goal
    context := context
    isRunning := true
    lastResult := none }

/-- `startNewRound`: archive a non-initial current round, bump the number,
set the phase, and carry the locked structure into non-first rounds. -/
def startNewRound (st : OrchestratorState) : OrchestratorState :=
  let roundHistory :=
    if st.currentRound.number > 0 then st.roundHistory ++ [st.currentRound]
    else st.roundHistory
  let newRoundNumber := st.currentRound.number + 1
  let isFirstRound := newRoundNumber = 1
  { st with
    roundHistory := roundHistory
    currentRound :=
      { number := newRoundNumber
        phase := if isFirstRound then RoundPhase.ARCHITECT else RoundPhase.REFINER
        plan := none
        evaluation := none
        stability := none
        locked_structure :=
          if isFirstRound then none else st.currentRound.locked_structure } }

/-- `generatePlan`: build the phase prompt, call the model, parse the plan.
(The refiner-phase locking validation only logs and is elided with the
logging layer.) -/
def generatePlan (provider : AiProvider) (st : OrchestratorState) : Except String Plan := do
  let previousPlan := (st.roundHistory.getLast?).bind (fun r => r.plan)
  let plannerInput : PlannerInput :=
    { goal := st.goal
      context := st.context
      previousPlan := previousPlan
      lockedStructure := st.currentRound.locked_structure
      phase := st.currentRound.phase
      constraints := [] }
  let prompt ←
    match st.currentRound.phase with
    | RoundPhase.ARCHITECT => Except.ok (createArchitectPrompt plannerInput)
    | RoundPhase.REFINER => createRefinerPrompt plannerInput
  let response ← provider (2 * (st.currentRound.number - 1)) prompt
  parsePlanResponse st.currentRound.number response

/-- `evaluatePlan`: build the blind-judge prompt, call the model, parse the
evaluation (the evaluation parser itself never throws). -/
def evaluatePlan (provider : AiProvider) (st : OrchestratorState) (plan : Plan) :
    Except String BlindEvaluation := do
  let previousPlan := (st.roundHistory.getLast?).bind (fun r => r.plan)
  let judgeInput : BlindJudgeInput :=
    { currentPlan := plan
      previousPlan := previousPlan
      goal := st.goal
      lockedStructure := st.currentRound.locked_structure }
  let prompt := createBlindEvaluationPrompt judgeInput
  let response ← provider (2 * (st.currentRound.number - 1) + 1) prompt
  Except.ok (parseBlindEvaluation response)

/-- Record the generated plan on the current round (line 446 of the
orchestrator). -/
def recordPlan (st : OrchestratorState) (plan : Plan) : OrchestratorState :=
  { st with currentRound := { st.currentRound with plan := some plan } }

/-- Step 2 of `executeRound`: lock the structure in round 1 (lines 454-461). -/
def lockIfFirst (st : OrchestratorState) (plan : Plan) (roundNumber : Nat) :
    OrchestratorState :=
  if roundNumber = 1 then
    { st with currentRound :=
        { st.currentRound with
          locked_structure := some (createLockedStructure plan roundNumber) } }
  else st

/-- Steps 3-5 of `executeRound`: blind evaluation, stability measurement
and the termination decision (lines 463-533); a thrown evaluation error
carries the state reached so far. -/
def roundTail (provider : AiProvider) (cfg : OrchestratorConfig) (st3 : OrchestratorState)
    (roundNumber : Nat) (plan : Plan) : Except String RoundResult × OrchestratorState :=
  match evaluatePlan provider st3 plan with
  | Except.error e => (Except.error e, st3)
  | Except.ok evaluation =>
    let st4 := { st3 with currentRound := { st3.currentRound with evaluation := some evaluation } }
    let previousRound := st4.roundHistory.getLast?
    let stability := calculateStability st4.currentRound previousRound evaluation
      stabilityDefaultConfig
    let st5 := { st4 with currentRound := { st4.currentRound with stability := some stability } }
    let decision := makeTerminationDecision
      { currentRound := st5.currentRound
        roundHistory := st5.roundHistory
        latestEvaluation := evaluation
        latestStability := stability }
      { maxRounds := cfg.maxRounds
        stabilityThreshold := cfg.stabilityThreshold
        goalDivergenceLimit := 2 }
    (Except.ok
      { round := roundNumber, plan := plan, evaluation := evaluation
        stability := stability, decision := decision }, st5)

/-- `executeRound`: start the round, generate and store the plan, lock the
structure in round 1, then evaluate, measure and decide.  A thrown error
carries the state reached so far (the source mutates `this.state` in
place, so the catch in `execute` sees the partial round). -/
def executeRound (provider : AiProvider) (cfg : OrchestratorConfig) (st : OrchestratorState) :
    Except String RoundResult × OrchestratorState :=
  let st1 := startNewRound st
  let roundNumber := st1.currentRound.number
  match generatePlan provider st1 with
  | Except.error e => (Except.error e, st1)
  | Except.ok plan =>
    roundTail provider cfg (lockIfFirst (recordPlan st1 plan) plan roundNumber) roundNumber plan

/-- The string value of a termination reason (the TypeScript values are
these strings). -/
def reasonString : TerminationReason → String
  | TerminationReason.stability_achieved => "stability_achieved"
  | TerminationReason.max_rounds_reached => "max_rounds_reached"
  | TerminationReason.contradiction_trend_up => "contradiction_trend_up"
  | TerminationReason.goal_diverging => "goal_diverging"
  | TerminationReason.task_complete => "task_complete"
  | TerminationReason.«continue» => "continue"

/-- `createFinalOutput`. -/
def createFinalOutput (roundResult : RoundResult) : String :=
  String.intercalate "\n"
    ([ "═══════════════════════════════════════"
     , "           ORCHESTRATION COMPLETE"
     , "═══════════════════════════════════════"
     , "" ]
     ++ createPlanSummary roundResult.plan
     ++ [ ""
        , "─────────────────────────────────────"
        , "📊 METRICS"
        , "─────────────────────────────────────"
        , "Rounds: " ++ toString roundResult.round
        , "Stability: " ++ Stability.toFixed1 (roundResult.stability.overall_stability * 100) ++ "%"
        , "Termination: " ++ reasonString roundResult.decision.reason
        , "" ]
     ++ createStabilityBreakdown roundResult.stability)

/-- `terminate`: stop the loop, build the final result and store it in
`lastResult`. -/
def terminate (roundResult : RoundResult) (st : OrchestratorState) :
    ExecutionResult × OrchestratorState :=
  let st := { st with isRunning := false }
  let result : ExecutionResult :=
    { success := roundResult.decision.reason = TerminationReason.stability_achieved ∨
        roundResult.decision.reason = TerminationReason.task_complete
      output := createFinalOutput roundResult
      round := roundResult.round
      stability := roundResult.stability.overall_stability
      terminated := true
      termination_reason := some roundResult.decision.reason }
  let st := { st with lastResult := some result }
  (result, st)

/-- Outcome of the `while (isRunning)` loop; `outOfFuel` is the fuel
artifact of the model (the theorems show it is unreachable once the fuel
covers `maxRounds`). -/
inductive LoopOutcome where
  | finished : ExecutionResult → OrchestratorState → LoopOutcome
  | failed : String → OrchestratorState → LoopOutcome
  | outOfFuel : OrchestratorState → LoopOutcome
deriving DecidableEq, Repr

/-- The state carried by a loop outcome. -/
def LoopOutcome.state : LoopOutcome → OrchestratorState
  | LoopOutcome.finished _ st => st
  | LoopOutcome.failed _ st => st
  | LoopOutcome.outOfFuel st => st

/-- The orchestration loop of `execute`. -/
def execLoop (provider : AiProvider) (cfg : OrchestratorConfig) :
    Nat → OrchestratorState → LoopOutcome
  | 0, st => LoopOutcome.outOfFuel st
  | fuel + 1, st =>
    match executeRound provider cfg st with
    | (Except.error e, st') => LoopOutcome.failed e st'
    | (Except.ok roundResult, st') =>
      if roundResult.decision.should_terminate then
        LoopOutcome.finished (terminate roundResult st').1 (terminate roundResult st').2
      else execLoop provider cfg fuel st'

/-- The unreachable post-loop fallback of `execute` (lines 400–411): it
terminates with a synthetic `max_rounds_reached` decision; were any of the
non-null assertions to fail at runtime the resulting `TypeError` would be
caught by the same catch block as every other error. -/
def fallbackTerminal (st : OrchestratorState) : ExecutionResult × OrchestratorState :=
  match st.currentRound.plan, st.currentRound.evaluation, st.currentRound.stability with
  | some plan, some evaluation, some stability =>
    terminate
      { round := st.currentRound.number, plan := plan, evaluation := evaluation
        stability := stability
        decision :=
          { should_terminate := true, reason := TerminationReason.max_rounds_reached
            confidence := 1 } }
      st
  | _, _, _ =>
    ({ success := false
       output := "Orchestration failed: TypeError"
       round := st.currentRound.number
       stability := (st.currentRound.stability.map (fun s => s.overall_stability)).getD 0
       terminated := true
       termination_reason := some TerminationReason.max_rounds_reached }, st)

/-- `Orchestrator.execute`: reset the state, run the loop; exceptions from
the model function or the plan parser are caught and turned into a failed
`ExecutionResult` (note: the catch branch neither stores `lastResult` nor
clears `isRunning`). -/
def execute (provider : AiProvider) (cfg : OrchestratorConfig) (fuel : Nat)
    (goal context : String) : ExecutionResult × OrchestratorState :=
  match execLoop provider cfg fuel (createInitialState goal context) with
  | LoopOutcome.finished result st => (result, st)
  | LoopOutcome.failed e st =>
    ({ success := false
       output := "Orchestration failed: " ++ e
       round := st.currentRound.number
       stability := (st.currentRound.stability.map (fun s => s.overall_stability)).getD 0
       terminated := true
       termination_reason := some TerminationReason.max_rounds_reached }, st)
  | LoopOutcome.outOfFuel st => fallbackTerminal st

/-- All rounds recorded in a state: the archived history followed by the
current round. -/
def allRounds (st : OrchestratorState) : List RoundState :=
  st.roundHistory ++ [st.currentRound]

end Orchestration

/-! ## Specification-side definitions

Definitions in this namespace follow the wording of the specification (and
of the claims derived from it); they exist to be compared against the
definitions above, which are translated from the source. -/

namespace Spec

/-- The first balanced `(dot dot dot)`-brace block of a string, per the
spec's description of the parsers ("locate the first balanced brace block"):
scan to the first `{`, then take characters until the brace depth returns
to zero. -/
def balancedBlockAux : List Char → Nat → List Char → Option (List Char)
  | [], _, _ => none
  | c :: cs, depth, acc =>
    if c = openBrace then balancedBlockAux cs (depth + 1) (c :: acc)
    else if c = closeBrace then
      if depth = 1 then some ((c :: acc).reverse)
      else if depth = 0 then none
      else balancedBlockAux cs (depth - 1) (c :: acc)
    else if depth = 0 then balancedBlockAux cs 0 acc
    else balancedBlockAux cs depth (c :: acc)

/-- First balanced brace block of `s`. -/
def firstBalancedBlock (s : List Char) : Option (List Char) :=
  balancedBlockAux s 0 []

/-- The six rule conditions of §4.G in the spec's priority order
(conditions 4 and 5 are stated through the engine's helper functions,
whose own semantics are settled by the contradiction-trend claim). -/
def ruleFires (ctx : Decision.DecisionContext) (cfg : Decision.DecisionEngineConfig) :
    Fin 6 → Bool
  | 0 => decide (ctx.latestEvaluation.missing.length = 0 ∧
      ctx.latestEvaluation.contradictions.length = 0)
  | 1 => decide (cfg.stabilityThreshold ≤ ctx.latestStability.overall_stability)
  | 2 => decide (cfg.maxRounds ≤ ctx.currentRound.number)
  | 3 => decide (cfg.goalDivergenceLimit ≤ Decision.countConsecutiveGoalDivergence
      ((ctx.roundHistory ++ [ctx.currentRound]).filterMap (fun r => r.evaluation)))
  | 4 => Decision.isContradictionTrendUp ctx.roundHistory ctx.currentRound
  | 5 => true

/-- The decision each rule of §4.G produces when it is the first to fire. -/
def ruleDecision (ctx : Decision.DecisionContext) (cfg : Decision.DecisionEngineConfig) :
    Fin 6 → TerminationDecision
  | 0 => { should_terminate := true, reason := TerminationReason.task_complete
           confidence := 95 / 100 }
  | 1 => { should_terminate := true, reason := TerminationReason.stability_achieved
           confidence := ctx.latestStability.overall_stability }
  | 2 => { should_terminate := true, reason := TerminationReason.max_rounds_reached
           confidence := 1 }
  | 3 => { should_terminate := true, reason := TerminationReason.goal_diverging
           confidence := 85 / 100 }
  | 4 => { should_terminate := true, reason := TerminationReason.contradiction_trend_up
           confidence := 75 / 100 }
  | 5 => { should_terminate := false, reason := TerminationReason.«continue»
           confidence := 1 - ctx.latestStability.overall_stability }

end Spec

/-! ## Helper lemmas -/

/-- Folding the trend step over exactly two rounds. -/
theorem trend_foldl_pair (a b : RoundState) :
    [a, b].foldl Decision.trendStep (true, 0) =
      (if Decision.contradictionCount b < Decision.contradictionCount a then
        (false, Decision.contradictionCount a)
      else (true, Decision.contradictionCount b)) := by
  simp [Decision.trendStep, List.foldl]

/-- The contradiction-trend check as a pattern on the last two archived
rounds. -/
theorem isContradictionTrendUp_eq (hist : List RoundState) (cur : RoundState) :
    Decision.isContradictionTrendUp hist cur =
      (match hist.drop (hist.length - 2) with
       | [a, b] => decide (Decision.contradictionCount a ≤ Decision.contradictionCount b) &&
           decide (Decision.contradictionCount b < Decision.contradictionCount cur)
       | _ => false) := by
  by_cases h : hist.length < 2
  · rw [Decision.isContradictionTrendUp, if_pos h]
    interval_cases hl : hist.length
    · rw [List.length_eq_zero] at hl
      subst hl
      rfl
    · obtain ⟨a, ha⟩ := List.length_eq_one.mp hl
      subst ha
      rfl
  · have hlen : (hist.drop (hist.length - 2)).length = 2 := by
      rw [List.length_drop]
      omega
    obtain ⟨a, b, hab⟩ := List.length_eq_two.mp hlen
    rw [Decision.isContradictionTrendUp, if_neg h, hab]
    simp only [trend_foldl_pair]
    by_cases hba : Decision.contradictionCount b < Decision.contradictionCount a
    · have hn : ¬ Decision.contradictionCount a ≤ Decision.contradictionCount b := by omega
      simp [hba, hn]
    · have hy : Decision.contradictionCount a ≤ Decision.contradictionCount b := by omega
      simp [hba, hy]

/-! ## Claim C9 -/

/-- C9: `makeTerminationDecision`'s contradiction-trend rule fires exactly
when at least two archived rounds exist (`hist = pre ++ [a, b]`), the
contradiction counts of the two most recent archived rounds do not
decrease, and the current round's count strictly exceeds the last archived
count; with fewer than two archived rounds it never fires. -/
theorem ubot_C9_contradiction_trend (hist : List RoundState) (cur : RoundState) :
    (Decision.isContradictionTrendUp hist cur = true ↔
      ∃ pre a b, hist = pre ++ [a, b] ∧
        Decision.contradictionCount a ≤ Decision.contradictionCount b ∧
        Decision.contradictionCount b < Decision.contradictionCount cur) ∧
    (hist.length < 2 → Decision.isContradictionTrendUp hist cur = false) := by
  constructor
  · rw [isContradictionTrendUp_eq]
    constructor
    · intro h
      split at h
      · next a b heq =>
        simp only [Bool.and_eq_true, decide_eq_true_eq] at h
        exact ⟨hist.take (hist.length - 2), a, b,
          by rw [← heq, List.take_append_drop], h.1, h.2⟩
      · exact absurd h (by simp)
    · rintro ⟨pre, a, b, rfl, h1, h2⟩
      have hdrop : (pre ++ [a, b]).drop ((pre ++ [a, b]).length - 2) = [a, b] := by
        have : (pre ++ [a, b]).length - 2 = pre.length := by
          simp [List.length_append]
        rw [this, List.drop_left]
      rw [hdrop]
      simp [h1, h2]
  · intro h
    rw [Decision.isContradictionTrendUp, if_pos h]

/-- Concrete instance of the contradiction-trend characterization. -/
theorem ubot_C9_witness :
    Decision.isContradictionTrendUp
      [{ number := 1, phase := RoundPhase.ARCHITECT, plan := none
         evaluation := some
           { vs_previous := VsPrevious.same, vs_goal := VsGoal.same
             contradictions := ["a"], missing := [], risks := [] }
         stability := none, locked_structure := none },
       { number := 2, phase := RoundPhase.REFINER, plan := none
         evaluation := some
           { vs_previous := VsPrevious.same, vs_goal := VsGoal.same
             contradictions := ["a"], missing := [], risks := [] }
         stability := none, locked_structure := none }]
      { number := 3, phase := RoundPhase.REFINER, plan := none
        evaluation := some
          { vs_previous := VsPrevious.same, vs_goal := VsGoal.same
            contradictions := ["a", "b"], missing := [], risks := [] }
        stability := none, locked_structure := none } = true :=
  (ubot_C9_contradiction_trend _ _).1.mpr ⟨[], _, _, rfl, by decide, by decide⟩

/-! ## Claim C1 -/

/-- C1: `makeTerminationDecision` applies the six rules in strict priority
order: whenever rule `i` (in the spec's order task_complete,
stability_achieved, max_rounds_reached, goal_diverging,
contradiction_trend_up, continue) fires and no earlier rule fires, the
returned decision is exactly rule `i`'s decision — in particular, empty
`missing` and `contradictions` always yield `task_complete` with
confidence 0.95 (rule 0's hypotheses say nothing about stability, round
number, divergence or trend), and when no terminating rule fires the
result is `continue` with `should_terminate = false` and confidence
`1 − overall_stability`. -/
theorem ubot_C1_priority_order (ctx : Decision.DecisionContext)
    (cfg : Decision.DecisionEngineConfig) (i : Fin 6)
    (hfire : Spec.ruleFires ctx cfg i = true)
    (hearlier : ∀ j : Fin 6, j < i → Spec.ruleFires ctx cfg j = false) :
    Decision.makeTerminationDecision ctx cfg = Spec.ruleDecision ctx cfg i := by
  fin_cases i
  · have h0 := of_decide_eq_true hfire
    rw [Decision.makeTerminationDecision, if_pos h0]
    rfl
  · have h0 := of_decide_eq_false (hearlier 0 (by decide))
    have h1 := of_decide_eq_true hfire
    rw [Decision.makeTerminationDecision, if_neg h0, if_pos h1]
    rfl
  · have h0 := of_decide_eq_false (hearlier 0 (by decide))
    have h1 := of_decide_eq_false (hearlier 1 (by decide))
    have h2 := of_decide_eq_true hfire
    rw [Decision.makeTerminationDecision, if_neg h0, if_neg h1, if_pos h2]
    rfl
  · have h0 := of_decide_eq_false (hearlier 0 (by decide))
    have h1 := of_decide_eq_false (hearlier 1 (by decide))
    have h2 := of_decide_eq_false (hearlier 2 (by decide))
    have h3 := of_decide_eq_true hfire
    rw [Decision.makeTerminationDecision, if_neg h0, if_neg h1, if_neg h2, if_pos h3]
    rfl
  · have h0 := of_decide_eq_false (hearlier 0 (by decide))
    have h1 := of_decide_eq_false (hearlier 1 (by decide))
    have h2 := of_decide_eq_false (hearlier 2 (by decide))
    have h3 := of_decide_eq_false (hearlier 3 (by decide))
    have h4 : Decision.isContradictionTrendUp ctx.roundHistory ctx.currentRound = true :=
      hfire
    rw [Decision.makeTerminationDecision, if_neg h0, if_neg h1, if_neg h2, if_neg h3,
      if_pos h4]
    rfl
  · have h0 := of_decide_eq_false (hearlier 0 (by decide))
    have h1 := of_decide_eq_false (hearlier 1 (by decide))
    have h2 := of_decide_eq_false (hearlier 2 (by decide))
    have h3 := of_decide_eq_false (hearlier 3 (by decide))
    have h4 : Decision.isContradictionTrendUp ctx.roundHistory ctx.currentRound = false :=
      hearlier 4 (by decide)
    have h4' : ¬ Decision.isContradictionTrendUp ctx.roundHistory ctx.currentRound = true := by
      simp [h4]
    rw [Decision.makeTerminationDecision, if_neg h0, if_neg h1, if_neg h2, if_neg h3,
      if_neg h4']
    rfl

/-- Concrete instance of the priority theorem: both the task-complete rule
and the stability rule fire, and the decision is task-complete with
confidence 0.95. -/
theorem ubot_C1_witness :
    Decision.makeTerminationDecision
      { currentRound :=
          { number := 9, phase := RoundPhase.REFINER, plan := none, evaluation := none
            stability := none, locked_structure := none }
        roundHistory := []
        latestEvaluation :=
          { vs_previous := VsPrevious.same, vs_goal := VsGoal.same
            contradictions := [], missing := [], risks := [] }
        latestStability :=
          { contradiction_ratio := 0, decision_reuse_rate := 1, plan_similarity := 1
            goal_convergence := 1, overall_stability := 99 / 100 } }
      Decision.decisionDefaultConfig =
      { should_terminate := true, reason := TerminationReason.task_complete
        confidence := 95 / 100 } :=
  ubot_C1_priority_order _ _ 0 (by decide) (by decide)

/-! ## Claim C5 -/

/-- Jaccard similarity lies in [0, 1]. -/
theorem calculateSetSimilarity_bounds (a b : List String) :
    0 ≤ Stability.calculateSetSimilarity a b ∧ Stability.calculateSetSimilarity a b ≤ 1 := by
  rw [Stability.calculateSetSimilarity]
  split
  · norm_num
  · split
    · norm_num
    · next h1 h2 =>
      set inter := a.dedup.filter (fun x => b.dedup.contains x) with hinter
      set union := (a ++ b).dedup with hunion
      have hsub : inter ⊆ union := by
        intro x hx
        have hxa : x ∈ a.dedup := List.mem_of_mem_filter hx
        have : x ∈ a ++ b := List.mem_append_left _ (List.mem_dedup.mp hxa)
        exact List.mem_dedup.mpr this
      have hnodup : inter.Nodup := (List.nodup_dedup a).filter _
      have hlen : inter.length ≤ union.length := (hnodup.subperm hsub).length_le
      have hupos : 0 < union.length := by
        rcases not_and_or.mp h1 with ha | hb
        · have : a.dedup ≠ [] := by
            intro hnil
            exact ha (by rw [hnil]; rfl)
          obtain ⟨x, hx⟩ := List.exists_mem_of_ne_nil _ this
          have : x ∈ union := List.mem_dedup.mpr
            (List.mem_append_left _ (List.mem_dedup.mp hx))
          exact List.length_pos.mpr (List.ne_nil_of_mem this)
        · have : b.dedup ≠ [] := by
            intro hnil
            exact hb (by rw [hnil]; rfl)
          obtain ⟨x, hx⟩ := List.exists_mem_of_ne_nil _ this
          have : x ∈ union := List.mem_dedup.mpr
            (List.mem_append_right _ (List.mem_dedup.mp hx))
          exact List.length_pos.mpr (List.ne_nil_of_mem this)
      constructor
      · positivity
      · rw [div_le_one (by exact_mod_cast hupos)]
        exact_mod_cast hlen

/-- Decision-reuse rate lies in [0, 1]. -/
theorem calculateDecisionReuseRate_bounds (c p : Option Plan) :
    0 ≤ Stability.calculateDecisionReuseRate c p ∧
      Stability.calculateDecisionReuseRate c p ≤ 1 := by
  cases c with
  | none => cases p <;> simp [Stability.calculateDecisionReuseRate] <;> norm_num
  | some current =>
  cases p with
  | none => simp [Stability.calculateDecisionReuseRate]; norm_num
  | some previous =>
    simp only [Stability.calculateDecisionReuseRate]
    split
    · norm_num
    · next hne =>
      set curr := Stability.decisionsOf current
      have hpos : 0 < curr.length := Nat.pos_of_ne_zero hne
      have hle : (curr.filter fun d => (Stability.decisionsOf previous).any
          (fun p' => (7 : ℚ) / 10 < Stability.calculateStringSimilarity d p')).length ≤
          curr.length := List.length_filter_le _ _
      constructor
      · positivity
      · rw [div_le_one (by exact_mod_cast hpos)]
        exact_mod_cast hle

/-- Plan similarity lies in [0, 1]. -/
theorem calculatePlanSimilarity_bounds (c p : Option Plan) :
    0 ≤ Stability.calculatePlanSimilarity c p ∧ Stability.calculatePlanSimilarity c p ≤ 1 := by
  cases c with
  | none => cases p <;> simp [Stability.calculatePlanSimilarity] <;> norm_num
  | some current =>
  cases p with
  | none => simp [Stability.calculatePlanSimilarity]; norm_num
  | some previous =>
    simp only [Stability.calculatePlanSimilarity]
    obtain ⟨hg0, hg1⟩ := calculateSetSimilarity_bounds current.goals previous.goals
    obtain ⟨hc0, hc1⟩ := calculateSetSimilarity_bounds current.constraints previous.constraints
    set ct : ℚ := (current.tasks.length : ℚ)
    set pt : ℚ := (previous.tasks.length : ℚ)
    have hct : 0 ≤ ct := by positivity
    have hpt : 0 ≤ pt := by positivity
    have hmax1 : (1 : ℚ) ≤ max (max ct pt) 1 := le_max_right _ _
    have habs : |ct - pt| ≤ max (max ct pt) 1 := by
      rcases le_total ct pt with h | h
      · rw [abs_of_nonpos (by linarith)]
        have : pt ≤ max ct pt := le_max_right _ _
        have : max ct pt ≤ max (max ct pt) 1 := le_max_left _ _
        linarith [le_max_right ct pt, le_max_left (max ct pt) 1]
      · rw [abs_of_nonneg (by linarith)]
        linarith [le_max_left ct pt, le_max_left (max ct pt) 1]
    have htc0 : 0 ≤ 1 - |ct - pt| / max (max ct pt) 1 := by
      have := div_le_one_of_le₀ habs (by linarith)
      linarith
    have htc1 : 1 - |ct - pt| / max (max ct pt) 1 ≤ 1 := by
      have habs0 : 0 ≤ |ct - pt| := abs_nonneg _
      have : 0 ≤ |ct - pt| / max (max ct pt) 1 := by positivity
      linarith
    constructor
    · linarith
    · linarith

/-- Goal convergence lies in [0, 1]. -/
theorem calculateGoalConvergence_bounds (e : BlindEvaluation) :
    0 ≤ Stability.calculateGoalConvergence e ∧ Stability.calculateGoalConvergence e ≤ 1 := by
  rw [Stability.calculateGoalConvergence]
  cases e.vs_goal <;> cases e.vs_previous <;>
    norm_num [Stability.vsGoalScore, Stability.vsPreviousScore]

/-- Two-decimal rounding preserves [0, 1]. -/
theorem roundTwoDecimals_bounds {x : ℚ} (h0 : 0 ≤ x) (h1 : x ≤ 1) :
    0 ≤ Stability.roundTwoDecimals x ∧ Stability.roundTwoDecimals x ≤ 1 := by
  rw [Stability.roundTwoDecimals]
  have hf0 : (0 : ℤ) ≤ ⌊(x * 100 + 1 / 2 : ℚ)⌋ := by
    apply Int.floor_nonneg.mpr
    linarith
  have hf1 : ⌊(x * 100 + 1 / 2 : ℚ)⌋ ≤ (100 : ℤ) := by
    apply Int.floor_le_iff.mpr
    push_cast
    linarith
  constructor
  · have : (0 : ℚ) ≤ (⌊(x * 100 + 1 / 2 : ℚ)⌋ : ℚ) := by exact_mod_cast hf0
    linarith
  · have : ((⌊(x * 100 + 1 / 2 : ℚ)⌋ : ℤ) : ℚ) ≤ 100 := by exact_mod_cast hf1
    linarith

/-- C5: every `StabilityMetrics` produced by `calculateStability` (with
the configuration the orchestrator uses) has all five components in
[0, 1]; the overall stability equals the convex combination
`(1 − contradiction_ratio)·0.30 + decision_reuse_rate·0.25 +
plan_similarity·0.25 + goal_convergence·0.20` rounded to two decimals; and
the four weights sum to 1. -/
theorem ubot_C5_stability_bounds (cur : RoundState) (prev : Option RoundState)
    (evaluation : BlindEvaluation) :
    (0 ≤ (Stability.calculateStability cur prev evaluation
        Stability.stabilityDefaultConfig).contradiction_ratio ∧
      (Stability.calculateStability cur prev evaluation
        Stability.stabilityDefaultConfig).contradiction_ratio ≤ 1) ∧
    (0 ≤ (Stability.calculateStability cur prev evaluation
        Stability.stabilityDefaultConfig).decision_reuse_rate ∧
      (Stability.calculateStability cur prev evaluation
        Stability.stabilityDefaultConfig).decision_reuse_rate ≤ 1) ∧
    (0 ≤ (Stability.calculateStability cur prev evaluation
        Stability.stabilityDefaultConfig).plan_similarity ∧
      (Stability.calculateStability cur prev evaluation
        Stability.stabilityDefaultConfig).plan_similarity ≤ 1) ∧
    (0 ≤ (Stability.calculateStability cur prev evaluation
        Stability.stabilityDefaultConfig).goal_convergence ∧
      (Stability.calculateStability cur prev evaluation
        Stability.stabilityDefaultConfig).goal_convergence ≤ 1) ∧
    (0 ≤ (Stability.calculateStability cur prev evaluation
        Stability.stabilityDefaultConfig).overall_stability ∧
      (Stability.calculateStability cur prev evaluation
        Stability.stabilityDefaultConfig).overall_stability ≤ 1) ∧
    (Stability.calculateStability cur prev evaluation
        Stability.stabilityDefaultConfig).overall_stability =
      Stability.roundTwoDecimals
        ((1 - (Stability.calculateStability cur prev evaluation
            Stability.stabilityDefaultConfig).contradiction_ratio) * (30 / 100) +
          (Stability.calculateStability cur prev evaluation
            Stability.stabilityDefaultConfig).decision_reuse_rate * (25 / 100) +
          (Stability.calculateStability cur prev evaluation
            Stability.stabilityDefaultConfig).plan_similarity * (25 / 100) +
          (Stability.calculateStability cur prev evaluation
            Stability.stabilityDefaultConfig).goal_convergence * (20 / 100)) ∧
    ((30 : ℚ) / 100 + 25 / 100 + 25 / 100 + 20 / 100 = 1) := by
  have hcr0 : (0 : ℚ) ≤ min ((evaluation.contradictions.length : ℚ) / 5) 1 := by
    apply le_min
    · positivity
    · norm_num
  have hcr1 : min ((evaluation.contradictions.length : ℚ) / 5) 1 ≤ 1 := min_le_right _ _
  obtain ⟨hd0, hd1⟩ := calculateDecisionReuseRate_bounds cur.plan
    (prev.bind (fun r => r.plan))
  obtain ⟨hp0, hp1⟩ := calculatePlanSimilarity_bounds cur.plan (prev.bind (fun r => r.plan))
  obtain ⟨hg0, hg1⟩ := calculateGoalConvergence_bounds evaluation
  have hov0 : (0 : ℚ) ≤ (1 - min ((evaluation.contradictions.length : ℚ) / 5) 1) * (30 / 100) +
      Stability.calculateDecisionReuseRate cur.plan (prev.bind (fun r => r.plan)) * (25 / 100) +
      Stability.calculatePlanSimilarity cur.plan (prev.bind (fun r => r.plan)) * (25 / 100) +
      Stability.calculateGoalConvergence evaluation * (20 / 100) := by
    nlinarith
  have hov1 : (1 - min ((evaluation.contradictions.length : ℚ) / 5) 1) * (30 / 100) +
      Stability.calculateDecisionReuseRate cur.plan (prev.bind (fun r => r.plan)) * (25 / 100) +
      Stability.calculatePlanSimilarity cur.plan (prev.bind (fun r => r.plan)) * (25 / 100) +
      Stability.calculateGoalConvergence evaluation * (20 / 100) ≤ 1 := by
    nlinarith
  obtain ⟨ho0, ho1⟩ := roundTwoDecimals_bounds hov0 hov1
  refine ⟨⟨hcr0, hcr1⟩, ⟨hd0, hd1⟩, ⟨hp0, hp1⟩, ⟨hg0, hg1⟩, ⟨ho0, ho1⟩, rfl, by norm_num⟩

/-! ## Claim C2 -/

/-- The blind judge's list coercion never yields more than 10 entries. -/
theorem validateStringArray_length_le (v : Option Json) :
    (BlindJudge.validateStringArray v).length ≤ 10 := by
  match v with
  | some (Json.arr xs) => simp [BlindJudge.validateStringArray, List.length_take]
  | none => simp [BlindJudge.validateStringArray]
  | some Json.null => simp [BlindJudge.validateStringArray]
  | some (Json.bool _) => simp [BlindJudge.validateStringArray]
  | some (Json.num _) => simp [BlindJudge.validateStringArray]
  | some (Json.str _) => simp [BlindJudge.validateStringArray]
  | some (Json.obj _) => simp [BlindJudge.validateStringArray]

/-- The comparison validation falls back to the middle option exactly when
the raw value is not a permitted string. -/
theorem validateComparison_fallback (v : Option Json) (valid : List String)
    (hno : ¬ ∃ s, v = some (Json.str s) ∧ valid.contains s = true) :
    BlindJudge.validateComparison v valid = valid.getD 1 "" := by
  match v with
  | none => rfl
  | some Json.null => rfl
  | some (Json.bool _) => rfl
  | some (Json.num _) => rfl
  | some (Json.arr _) => rfl
  | some (Json.obj _) => rfl
  | some (Json.str s) =>
    have hc : valid.contains s = false := by
      by_contra hcc
      exact hno ⟨s, rfl, by simpa using hcc⟩
    show (if valid.contains s = true then s else valid.getD 1 "") = valid.getD 1 ""
    rw [if_neg (by rw [hc]; simp : ¬ valid.contains s = true)]

/-- On the non-`null` success path the parsed evaluation is the validated
field record. -/
theorem parseBlindEvaluation_success (response : String) (b : List Char) (j : Json)
    (hx : extractJsonBlock response.data = some b) (hj : jsonParse b = some j)
    (hnull : j.isNull = false) :
    BlindJudge.parseBlindEvaluation response =
      { vs_previous := BlindJudge.vsPreviousOfString
          (BlindJudge.validateComparison (jsGetField j "vs_previous") ["better", "same", "worse"])
        vs_goal := BlindJudge.vsGoalOfString
          (BlindJudge.validateComparison (jsGetField j "vs_goal") ["closer", "same", "farther"])
        contradictions := BlindJudge.validateStringArray (jsGetField j "contradictions")
        missing := BlindJudge.validateStringArray (jsGetField j "missing")
        risks := BlindJudge.validateStringArray (jsGetField j "risks") } := by
  simp only [BlindJudge.parseBlindEvaluation, hx, hj]
  cases j with
  | null => exact absurd hnull (by simp [Json.isNull])
  | bool b => rfl
  | num q => rfl
  | str s => rfl
  | arr xs => rfl
  | obj fields => rfl

/-- The parsed evaluation on the three failure paths. -/
theorem parseBlindEvaluation_default (response : String)
    (h : extractJsonBlock response.data = none ∨
      (∃ b, extractJsonBlock response.data = some b ∧ jsonParse b = none) ∨
      (∃ b, extractJsonBlock response.data = some b ∧ jsonParse b = some Json.null)) :
    BlindJudge.parseBlindEvaluation response = BlindJudge.conservativeDefaultEvaluation := by
  rcases h with hx | ⟨b, hx, hj⟩ | ⟨b, hx, hj⟩
  · simp only [BlindJudge.parseBlindEvaluation, hx]
  · simp only [BlindJudge.parseBlindEvaluation, hx, hj]
  · simp only [BlindJudge.parseBlindEvaluation, hx, hj]

/-- C2: `parseBlindEvaluation` is total (it never raises): the list fields
are always capped at 10 entries; when extraction fails, when `JSON.parse`
fails, or when the parsed value is `null` (so that field access throws) it
returns exactly the conservative default record; on the success path each
comparison field is the validation of the corresponding JSON field against
its permitted set (falling back to the neutral middle exactly when the raw
value is not a permitted string) and each list field is the string-coercion
of its JSON field truncated to 10. -/
theorem ubot_C2_evaluation_parsing (response : String) :
    (BlindJudge.parseBlindEvaluation response).contradictions.length ≤ 10 ∧
    (BlindJudge.parseBlindEvaluation response).missing.length ≤ 10 ∧
    (BlindJudge.parseBlindEvaluation response).risks.length ≤ 10 ∧
    ((extractJsonBlock response.data = none ∨
      (∃ b, extractJsonBlock response.data = some b ∧ jsonParse b = none) ∨
      (∃ b, extractJsonBlock response.data = some b ∧ jsonParse b = some Json.null)) →
      BlindJudge.parseBlindEvaluation response =
        { vs_previous := VsPrevious.same, vs_goal := VsGoal.same
          contradictions := ["Evaluation parsing failed"], missing := []
          risks := ["Unable to properly evaluate plan"] }) ∧
    (∀ b j, extractJsonBlock response.data = some b → jsonParse b = some j →
      j.isNull = false →
      BlindJudge.parseBlindEvaluation response =
        { vs_previous := BlindJudge.vsPreviousOfString
            (BlindJudge.validateComparison (jsGetField j "vs_previous")
              ["better", "same", "worse"])
          vs_goal := BlindJudge.vsGoalOfString
            (BlindJudge.validateComparison (jsGetField j "vs_goal")
              ["closer", "same", "farther"])
          contradictions := BlindJudge.validateStringArray (jsGetField j "contradictions")
          missing := BlindJudge.validateStringArray (jsGetField j "missing")
          risks := BlindJudge.validateStringArray (jsGetField j "risks") }) ∧
    (∀ v valid, (¬ ∃ s, v = some (Json.str s) ∧ valid.contains s = true) →
      BlindJudge.validateComparison v valid = valid.getD 1 "") := by
  refine ⟨?_, ?_, ?_, fun h => parseBlindEvaluation_default response h,
    fun b j hx hj hn => parseBlindEvaluation_success response b j hx hj hn,
    validateComparison_fallback⟩
  all_goals
    cases hx : extractJsonBlock response.data with
    | none =>
      rw [parseBlindEvaluation_default response (Or.inl hx)]
      decide
    | some b =>
      cases hj : jsonParse b with
      | none =>
        rw [parseBlindEvaluation_default response (Or.inr (Or.inl ⟨b, hx, hj⟩))]
        decide
      | some j =>
        cases hn : j.isNull with
        | true =>
          have hjn : j = Json.null := by
            cases j <;> simp [Json.isNull] at hn ⊢
          subst hjn
          rw [parseBlindEvaluation_default response (Or.inr (Or.inr ⟨b, hx, hj⟩))]
          decide
        | false =>
          rw [parseBlindEvaluation_success response b j hx hj hn]
          exact validateStringArray_length_le _

/-- Concrete instance of the conservative default: a response with no brace
block at all parses to the default evaluation. -/
theorem ubot_C2_witness :
    BlindJudge.parseBlindEvaluation "the model said nothing useful" =
      { vs_previous := VsPrevious.same, vs_goal := VsGoal.same
        contradictions := ["Evaluation parsing failed"], missing := []
        risks := ["Unable to properly evaluate plan"] } :=
  (ubot_C2_evaluation_parsing "the model said nothing useful").2.2.2.1 (Or.inl rfl)

/-! ## Claim C7 -/

/-- Dropping while a predicate holds skips a fully-satisfying prefix. -/
theorem dropWhile_append_all {α : Type} (p : α → Bool) (pre s : List α)
    (h : ∀ c ∈ pre, p c = true) : (pre ++ s).dropWhile p = s.dropWhile p := by
  induction pre with
  | nil => rfl
  | cons a l ih =>
    rw [List.cons_append, List.dropWhile_cons, if_pos (by simp [h a (by simp)])]
    exact ih (fun c hc => h c (by simp [hc]))

/-- Dropping while a predicate holds stops inside a list that contains a
failing element. -/
theorem dropWhile_append_stops {α : Type} (p : α → Bool) (l r : List α)
    (h : ∃ x ∈ l, p x = false) : (l ++ r).dropWhile p = l.dropWhile p ++ r := by
  induction l with
  | nil =>
    obtain ⟨x, hx, _⟩ := h
    exact absurd hx (by simp)
  | cons a l ih =>
    by_cases hpa : p a = true
    · rw [List.cons_append, List.dropWhile_cons, if_pos (by simp [hpa]),
        List.dropWhile_cons, if_pos (by simp [hpa])]
      apply ih
      obtain ⟨x, hx, hpx⟩ := h
      rcases List.mem_cons.mp hx with rfl | hxl
      · rw [hpa] at hpx
        cases hpx
      · exact ⟨x, hxl, hpx⟩
    · have hpa' : p a = false := by
        cases hv : p a
        · rfl
        · exact absurd hv hpa
      rw [List.cons_append, List.dropWhile_cons, if_neg (by simp [hpa']),
        List.dropWhile_cons, if_neg (by simp [hpa']), List.cons_append]

/-- Dropping while a predicate that holds everywhere empties the list. -/
theorem dropWhile_all {α : Type} (p : α → Bool) (l : List α)
    (h : ∀ c ∈ l, p c = true) : l.dropWhile p = [] := by
  induction l with
  | nil => rfl
  | cons a l ih =>
    rw [List.dropWhile_cons, if_pos (by simp [h a (by simp)])]
    exact ih (fun c hc => h c (by simp [hc]))

/-- The greedy brace extraction ignores brace-free text before and after
the payload. -/
theorem extractJsonBlock_append (pre mid post : List Char)
    (hpre : openBrace ∉ pre) (hpost1 : openBrace ∉ post) (hpost2 : closeBrace ∉ post) :
    extractJsonBlock (pre ++ mid ++ post) = extractJsonBlock mid := by
  have hfront : (pre ++ mid ++ post).dropWhile (fun c => c ≠ openBrace) =
      (mid ++ post).dropWhile (fun c => c ≠ openBrace) := by
    rw [List.append_assoc]
    exact dropWhile_append_all _ pre (mid ++ post)
      (fun c hc => by simp; exact fun h => hpre (h ▸ hc))
  by_cases hmid : openBrace ∈ mid
  · have hstop : (mid ++ post).dropWhile (fun c => c ≠ openBrace) =
        mid.dropWhile (fun c => c ≠ openBrace) ++ post :=
      dropWhile_append_stops _ mid post ⟨openBrace, hmid, by simp⟩
    rw [extractJsonBlock, extractJsonBlock, hfront, hstop]
    have hback : (mid.dropWhile (fun c => c ≠ openBrace) ++ post).reverse.dropWhile
        (fun c => c ≠ closeBrace) =
        (mid.dropWhile (fun c => c ≠ openBrace)).reverse.dropWhile
        (fun c => c ≠ closeBrace) := by
      rw [List.reverse_append]
      exact dropWhile_append_all _ post.reverse _
        (fun c hc => by simp; exact fun h => hpost2 (h ▸ List.mem_reverse.mp hc))
    rw [hback]
  · have hmid' : mid.dropWhile (fun c => c ≠ openBrace) = [] :=
      dropWhile_all _ mid (fun c hc => by simp; exact fun h => hmid (h ▸ hc))
    have hall : (mid ++ post).dropWhile (fun c => c ≠ openBrace) = [] :=
      dropWhile_all _ (mid ++ post) (fun c hc => by
        simp
        intro h
        subst h
        rcases List.mem_append.mp hc with h | h
        · exact hmid h
        · exact hpost1 h)
    rw [extractJsonBlock, extractJsonBlock, hfront, hall, hmid']

/-- C7 (amended): both parsers consume the greedy segment from the first
`{` of the response to its last `}`; consequently, surrounding text that
contains no brace on the left and no brace on the right leaves the parsed
result of `parsePlanResponse` and `parseBlindEvaluation` unchanged. (The
original claim — that only the first *balanced* block matters — fails: see
the counterexample, where a second brace block after a valid first block
turns success into a parse failure.) -/
theorem ubot_C7_surrounding_text (now : Nat) (pre mid post : String)
    (hpre : openBrace ∉ pre.data)
    (hpost1 : openBrace ∉ post.data) (hpost2 : closeBrace ∉ post.data) :
    extractJsonBlock (pre ++ mid ++ post).data = extractJsonBlock mid.data ∧
    Planner.parsePlanResponse now (pre ++ mid ++ post) = Planner.parsePlanResponse now mid ∧
    BlindJudge.parseBlindEvaluation (pre ++ mid ++ post) =
      BlindJudge.parseBlindEvaluation mid := by
  have hdata : (pre ++ mid ++ post).data = pre.data ++ mid.data ++ post.data := by
    rw [String.data_append, String.data_append]
  have hx : extractJsonBlock (pre ++ mid ++ post).data = extractJsonBlock mid.data := by
    rw [hdata]
    exact extractJsonBlock_append pre.data mid.data post.data hpre hpost1 hpost2
  refine ⟨hx, ?_, ?_⟩
  · rw [Planner.parsePlanResponse, Planner.parsePlanResponse, hx]
  · rw [BlindJudge.parseBlindEvaluation, BlindJudge.parseBlindEvaluation, hx]

/-- Concrete instance of the amended surrounding-text theorem. -/
theorem ubot_C7_witness :
    Planner.parsePlanResponse 1
        ("Sure, here is the plan: " ++ "\x7b\"goals\":[\"g\"]\x7d" ++ " (hope it helps)") =
      Planner.parsePlanResponse 1 "\x7b\"goals\":[\"g\"]\x7d" :=
  (ubot_C7_surrounding_text 1 "Sure, here is the plan: " "\x7b\"goals\":[\"g\"]\x7d"
    " (hope it helps)" (by decide) (by decide) (by decide)).2.1

/-- C7 counterexample: the response
`x{"goals":["g"]} {}` has `{"goals":["g"]}` as its first balanced brace
block, which is valid JSON, yet `parsePlanResponse` fails on it (and
succeeds without the trailing empty block), and `parseBlindEvaluation`
falls back to the conservative default on the corresponding evaluation
response: the parsers consume the segment up to the *last* `}`, not the
first balanced block. -/
theorem ubot_C7_counterexample :
    Spec.firstBalancedBlock ("x\x7b\"goals\":[\"g\"]\x7d \x7b\x7d" : String).data =
      some ("\x7b\"goals\":[\"g\"]\x7d" : String).data ∧
    (jsonParse ("\x7b\"goals\":[\"g\"]\x7d" : String).data).isSome = true ∧
    (Planner.parsePlanResponse 1 "x\x7b\"goals\":[\"g\"]\x7d").isOk = true ∧
    (Planner.parsePlanResponse 1 "x\x7b\"goals\":[\"g\"]\x7d \x7b\x7d").isOk = false ∧
    BlindJudge.parseBlindEvaluation "x\x7b\"vs_goal\":\"closer\"\x7d \x7b\x7d" =
      BlindJudge.conservativeDefaultEvaluation ∧
    BlindJudge.parseBlindEvaluation "x\x7b\"vs_goal\":\"closer\"\x7d" ≠
      BlindJudge.parseBlindEvaluation "x\x7b\"vs_goal\":\"closer\"\x7d \x7b\x7d" := by
  refine ⟨rfl, rfl, rfl, rfl, rfl, ?_⟩
  decide

/-! ## Claim C10 -/

namespace Spec

/-- Does the `tasks` field hold an array with a `null` entry?  (Property
access on such an entry is what makes the plan parser throw on otherwise
valid JSON.) -/
def tasksArrayHasNull (j : Json) : Bool :=
  match jsGetField j "tasks" with
  | some (Json.arr xs) => xs.any Json.isNull
  | _ => false

end Spec

/-- A non-`null` task entry always parses. -/
theorem parseTask_ok (now i : Nat) (t : Json) (h : t.isNull = false) :
    ∃ task, Planner.parseTask now i t = Except.ok task := by
  cases t with
  | null => exact absurd h (by simp [Json.isNull])
  | bool b => exact ⟨_, rfl⟩
  | num q => exact ⟨_, rfl⟩
  | str s => exact ⟨_, rfl⟩
  | arr xs => exact ⟨_, rfl⟩
  | obj fields => exact ⟨_, rfl⟩

/-- A `null`-free task array parses to a task list of the same length. -/
theorem parseTasksAux_ok (now : Nat) :
    ∀ (xs : List Json) (i : Nat), (∀ x ∈ xs, x.isNull = false) →
    ∃ ts, Planner.parseTasksAux now i xs = Except.ok ts ∧ ts.length = xs.length := by
  intro xs
  induction xs with
  | nil => exact fun i _ => ⟨[], rfl, rfl⟩
  | cons x l ih =>
    intro i h
    obtain ⟨task, htask⟩ := parseTask_ok now i x (h x (by simp))
    obtain ⟨tail, htail, hlen⟩ := ih (i + 1) (fun c hc => h c (by simp [hc]))
    refine ⟨task :: tail, ?_, by simp [hlen]⟩
    rw [Planner.parseTasksAux]
    rw [htask, htail]
    rfl

/-- A task array containing a `null` entry makes parsing throw. -/
theorem parseTasksAux_err (now : Nat) :
    ∀ (xs : List Json) (i : Nat), (∃ x ∈ xs, x.isNull = true) →
    ∃ e, Planner.parseTasksAux now i xs = Except.error e := by
  intro xs
  induction xs with
  | nil =>
    intro i h
    obtain ⟨x, hx, _⟩ := h
    exact absurd hx (by simp)
  | cons x l ih =>
    intro i h
    cases hx : x.isNull with
    | true =>
      have hxnull : x = Json.null := by
        cases x <;> simp [Json.isNull] at hx ⊢
      subst hxnull
      exact ⟨_, rfl⟩
    | false =>
      obtain ⟨task, htask⟩ := parseTask_ok now i x hx
      have hl : ∃ y ∈ l, y.isNull = true := by
        obtain ⟨y, hy, hyn⟩ := h
        rcases List.mem_cons.mp hy with rfl | hyl
        · rw [hx] at hyn
          cases hyn
        · exact ⟨y, hyl, hyn⟩
      obtain ⟨e, he⟩ := ih (i + 1) hl
      refine ⟨e, ?_⟩
      rw [Planner.parseTasksAux]
      rw [htask, he]
      rfl

/-- On a successfully extracted and parsed non-`null` value, the plan
parser reduces to the task-parsing step. -/
theorem parsePlanResponse_eq (now : Nat) (response : String) (b : List Char) (j : Json)
    (hx : extractJsonBlock response.data = some b) (hj : jsonParse b = some j)
    (hnull : j.isNull = false) :
    Planner.parsePlanResponse now response =
      (match Planner.parseTasks now (jsGetField j "tasks") with
       | Except.error e => Except.error ("Error: Plan parsing failed: " ++ e)
       | Except.ok tasks => Except.ok
          { id := "plan_" ++ toString now
            goals := Planner.validateStringArray (jsGetField j "goals")
            tasks := tasks
            constraints := Planner.validateStringArray (jsGetField j "constraints")
            created_at := now }) := by
  simp only [Planner.parsePlanResponse, hx, hj]
  cases j with
  | null => exact absurd hnull (by simp [Json.isNull])
  | bool b => rfl
  | num q => rfl
  | str s => rfl
  | arr xs => rfl
  | obj fields => rfl

/-- A `null`-free (or absent, or non-array) `tasks` field parses. -/
theorem parseTasks_ok_of_nullfree (now : Nat) (j : Json)
    (h : Spec.tasksArrayHasNull j = false) :
    ∃ ts, Planner.parseTasks now (jsGetField j "tasks") = Except.ok ts := by
  rw [Spec.tasksArrayHasNull] at h
  match hv : jsGetField j "tasks" with
  | some (Json.arr xs) =>
    rw [hv] at h
    change xs.any Json.isNull = false at h
    have hnf : ∀ x ∈ xs, x.isNull = false := by
      intro x hxm
      cases hxn : x.isNull with
      | false => rfl
      | true => exact absurd (List.any_eq_true.mpr ⟨x, hxm, hxn⟩) (by simp [h])
    obtain ⟨ts, hts, _⟩ := parseTasksAux_ok now xs 0 hnf
    exact ⟨ts, by rw [Planner.parseTasks]; exact hts⟩
  | none => exact ⟨[], rfl⟩
  | some Json.null => exact ⟨[], rfl⟩
  | some (Json.bool _) => exact ⟨[], rfl⟩
  | some (Json.num _) => exact ⟨[], rfl⟩
  | some (Json.str _) => exact ⟨[], rfl⟩
  | some (Json.obj _) => exact ⟨[], rfl⟩

/-- A `tasks` array with a `null` entry makes `parseTasks` throw. -/
theorem parseTasks_err_of_null (now : Nat) (j : Json)
    (h : Spec.tasksArrayHasNull j = true) :
    ∃ e, Planner.parseTasks now (jsGetField j "tasks") = Except.error e := by
  rw [Spec.tasksArrayHasNull] at h
  match hv : jsGetField j "tasks" with
  | some (Json.arr xs) =>
    rw [hv] at h
    change xs.any Json.isNull = true at h
    obtain ⟨x, hxm, hxn⟩ := List.any_eq_true.mp h
    obtain ⟨e, he⟩ := parseTasksAux_err now xs 0 ⟨x, hxm, hxn⟩
    exact ⟨e, by rw [Planner.parseTasks]; exact he⟩
  | none => rw [hv] at h; exact Bool.noConfusion h
  | some Json.null => rw [hv] at h; exact Bool.noConfusion h
  | some (Json.bool _) => rw [hv] at h; exact Bool.noConfusion h
  | some (Json.num _) => rw [hv] at h; exact Bool.noConfusion h
  | some (Json.str _) => rw [hv] at h; exact Bool.noConfusion h
  | some (Json.obj _) => rw [hv] at h; exact Bool.noConfusion h

/-- C10 (amended): `parsePlanResponse` succeeds exactly when a brace
segment exists, it parses as JSON, the parsed value is not `null`, and the
`tasks` field does not hold an array containing a `null` entry (property
access on a `null` entry throws, and the resulting `TypeError` is
rethrown as a `PlanParseError` even though the JSON itself was valid — this
last case is what the original claim missed).  On success, the `goals` and
`constraints` fields are the string-filtered coercions of their JSON
fields — empty when the key is absent or not an array, with non-string
entries dropped — and the task list has one task per entry of the `tasks`
array. -/
theorem ubot_C10_plan_parsing (now : Nat) (response : String) :
    ((∃ p, Planner.parsePlanResponse now response = Except.ok p) ↔
      (∃ b j, extractJsonBlock response.data = some b ∧ jsonParse b = some j ∧
        j.isNull = false ∧ Spec.tasksArrayHasNull j = false)) ∧
    (∀ b j, extractJsonBlock response.data = some b → jsonParse b = some j →
      j.isNull = false → Spec.tasksArrayHasNull j = false →
      ∃ ts, Planner.parseTasks now (jsGetField j "tasks") = Except.ok ts ∧
        Planner.parsePlanResponse now response = Except.ok
          { id := "plan_" ++ toString now
            goals := Planner.validateStringArray (jsGetField j "goals")
            tasks := ts
            constraints := Planner.validateStringArray (jsGetField j "constraints")
            created_at := now }) ∧
    (∀ v : Option Json, (∀ xs, v ≠ some (Json.arr xs)) → Planner.validateStringArray v = []) ∧
    (∀ xs, Planner.validateStringArray (some (Json.arr xs)) =
      xs.filterMap BlindJudge.jsAsString) := by
  have hsucc : ∀ b j, extractJsonBlock response.data = some b → jsonParse b = some j →
      j.isNull = false → Spec.tasksArrayHasNull j = false →
      ∃ ts, Planner.parseTasks now (jsGetField j "tasks") = Except.ok ts ∧
        Planner.parsePlanResponse now response = Except.ok
          { id := "plan_" ++ toString now
            goals := Planner.validateStringArray (jsGetField j "goals")
            tasks := ts
            constraints := Planner.validateStringArray (jsGetField j "constraints")
            created_at := now } := by
    intro b j hx hj hnull htasks
    obtain ⟨ts, hts⟩ := parseTasks_ok_of_nullfree now j htasks
    refine ⟨ts, hts, ?_⟩
    rw [parsePlanResponse_eq now response b j hx hj hnull, hts]
  refine ⟨⟨?_, ?_⟩, hsucc, ?_, fun xs => rfl⟩
  · rintro ⟨p, hp⟩
    cases hx : extractJsonBlock response.data with
    | none =>
      rw [Planner.parsePlanResponse, hx] at hp
      cases hp
    | some b =>
      cases hj : jsonParse b with
      | none =>
        simp only [Planner.parsePlanResponse, hx, hj] at hp
        cases hp
      | some j =>
        cases hnull : j.isNull with
        | true =>
          have : j = Json.null := by
            cases j <;> simp [Json.isNull] at hnull ⊢
          subst this
          simp only [Planner.parsePlanResponse, hx, hj] at hp
          cases hp
        | false =>
          cases htasks : Spec.tasksArrayHasNull j with
          | true =>
            obtain ⟨e, he⟩ := parseTasks_err_of_null now j htasks
            rw [parsePlanResponse_eq now response b j hx hj hnull, he] at hp
            cases hp
          | false => exact ⟨b, j, rfl, hj, hnull, htasks⟩
  · rintro ⟨b, j, hx, hj, hnull, htasks⟩
    obtain ⟨ts, _, hp⟩ := hsucc b j hx hj hnull htasks
    exact ⟨_, hp⟩
  · intro v hv
    match v with
    | none => rfl
    | some Json.null => rfl
    | some (Json.bool _) => rfl
    | some (Json.num _) => rfl
    | some (Json.str _) => rfl
    | some (Json.obj _) => rfl
    | some (Json.arr xs) => exact absurd rfl (hv xs)

/-- Concrete instance of the success path: a non-array `goals`, a missing
`constraints` key and a defaulted task all parse. -/
theorem ubot_C10_witness :
    Planner.parsePlanResponse 7 "\x7b\"goals\":true,\"tasks\":[\x7b\x7d]\x7d" =
      Except.ok
        { id := "plan_7"
          goals := []
          tasks := [{ id := "task_0_7", description := "Unknown task"
                      priority := TaskPriority.medium, status := TaskStatus.pending
                      dependencies := [] }]
          constraints := []
          created_at := 7 } := by
  obtain ⟨ts, hts, hp⟩ := (ubot_C10_plan_parsing 7 "\x7b\"goals\":true,\"tasks\":[\x7b\x7d]\x7d").2.1
    ("\x7b\"goals\":true,\"tasks\":[\x7b\x7d]\x7d" : String).data
    (Json.obj [("goals", Json.bool true), ("tasks", Json.arr [Json.obj []])])
    rfl rfl rfl rfl
  rw [hp]
  cases hts
  rfl

/-- C10 counterexample: `{"tasks":[null]}` is extracted and is valid JSON,
yet `parsePlanResponse` raises a `PlanParseError`. -/
theorem ubot_C10_counterexample :
    (∃ b, extractJsonBlock ("\x7b\"tasks\":[null]\x7d" : String).data = some b ∧
      (jsonParse b).isSome = true) ∧
    (∃ e, Planner.parsePlanResponse 1 "\x7b\"tasks\":[null]\x7d" = Except.error e) :=
  ⟨⟨_, rfl, rfl⟩, ⟨_, rfl⟩⟩

/-! ## Claim C8 -/

namespace Spec

/-- The claim's reading of the keyword tokens: split the decision on
*whitespace* and keep tokens longer than 4. -/
def whitespaceKeywords (decision : String) : List String :=
  (splitOnPred (fun c => c.isWhitespace) (strToLower decision)).filter (fun w => 4 < w.length)

/-- The violation list exactly as the claim describes it (split on
whitespace; a violation when fewer than half of the tokens appear in the
serialized plan). -/
def claimViolations (plan : Plan) (lockedStructure : LockedStructure) : List String :=
  lockedStructure.goals.filterMap (fun g =>
    if (plan.goals.map strToLower).contains (strToLower g) then none
    else some ("Locked goal removed: \"" ++ g ++ "\"")) ++
  lockedStructure.core_decisions.filterMap (fun d =>
    let keywords := whitespaceKeywords d
    let matchCount := (keywords.filter (fun kw =>
      Planner.strIncludes (strToLower (Planner.stringifyPlan plan)) kw)).length
    if 2 * matchCount < keywords.length then
      some ("Core decision may be violated: \"" ++ d ++ "\"")
    else none)

/-- The amended violation list: as the claim describes it, but splitting
each decision on the *space character* only (as the source does). -/
def amendedViolations (plan : Plan) (lockedStructure : LockedStructure) : List String :=
  lockedStructure.goals.filterMap (fun g =>
    if strToLower g ∈ plan.goals.map strToLower then none
    else some ("Locked goal removed: \"" ++ g ++ "\"")) ++
  lockedStructure.core_decisions.filterMap (fun d =>
    let keywords := Planner.decisionKeywords d
    let matchCount := (keywords.filter (fun kw =>
      Planner.strIncludes (strToLower (Planner.stringifyPlan plan)) kw)).length
    if 2 * matchCount < keywords.length then
      some ("Core decision may be violated: \"" ++ d ++ "\"")
    else none)

end Spec

/-- The source's fractional threshold is the "fewer than half" test. -/
theorem half_threshold_iff (m k : Nat) :
    ((m : ℚ) < (k : ℚ) * (5 / 10)) ↔ 2 * m < k := by
  constructor
  · intro h
    have h2 : ((2 * m : Nat) : ℚ) < (k : ℚ) := by push_cast; linarith
    exact_mod_cast h2
  · intro h
    have h2 : ((2 * m : Nat) : ℚ) < ((k : Nat) : ℚ) := by exact_mod_cast h
    push_cast at h2
    linarith

/-- C8 (amended): `validateAgainstLockedStructure` never throws and returns
exactly one `Locked goal removed` violation per locked goal missing
case-insensitively from the plan's goals, followed by one
`Core decision may be violated` violation per core decision whose
space-separated tokens of length > 4 appear (case-insensitively, in the
serialized plan) fewer than half the time; `valid` is true iff the
violation list is empty.  (The original claim said the decision is split
on *whitespace*; the source splits on the space character only — see the
counterexample.) -/
theorem ubot_C8_locked_validation (plan : Plan) (lockedStructure : LockedStructure) :
    (Planner.validateAgainstLockedStructure plan lockedStructure).violations =
      Spec.amendedViolations plan lockedStructure ∧
    ((Planner.validateAgainstLockedStructure plan lockedStructure).valid = true ↔
      (Planner.validateAgainstLockedStructure plan lockedStructure).violations = []) := by
  have hgoal : Planner.goalViolation plan = (fun g =>
      if strToLower g ∈ plan.goals.map strToLower then none
      else some ("Locked goal removed: \"" ++ g ++ "\"")) := by
    funext g
    rw [Planner.goalViolation]
    by_cases h : strToLower g ∈ plan.goals.map strToLower
    · rw [if_pos (by simpa using h), if_pos h]
    · rw [if_neg (by simpa using h), if_neg h]
  have hdec : Planner.decisionViolation (strToLower (Planner.stringifyPlan plan)) = (fun d =>
      let keywords := Planner.decisionKeywords d
      let matchCount := (keywords.filter (fun kw =>
        Planner.strIncludes (strToLower (Planner.stringifyPlan plan)) kw)).length
      if 2 * matchCount < keywords.length then
        some ("Core decision may be violated: \"" ++ d ++ "\"")
      else none) := by
    funext d
    rw [Planner.decisionViolation]
    show (if (((Planner.decisionKeywords d).filter (fun kw =>
        Planner.strIncludes (strToLower (Planner.stringifyPlan plan)) kw)).length : ℚ) <
        ((Planner.decisionKeywords d).length : ℚ) * (5 / 10) then
        some ("Core decision may be violated: \"" ++ d ++ "\"") else none) =
      (if 2 * ((Planner.decisionKeywords d).filter (fun kw =>
        Planner.strIncludes (strToLower (Planner.stringifyPlan plan)) kw)).length <
        (Planner.decisionKeywords d).length then
        some ("Core decision may be violated: \"" ++ d ++ "\"") else none)
    by_cases h : 2 * ((Planner.decisionKeywords d).filter (fun kw =>
        Planner.strIncludes (strToLower (Planner.stringifyPlan plan)) kw)).length <
        (Planner.decisionKeywords d).length
    · rw [if_pos ((half_threshold_iff _ _).mpr h), if_pos h]
    · rw [if_neg (fun hc => h ((half_threshold_iff _ _).mp hc)), if_neg h]
  constructor
  · show lockedStructure.goals.filterMap (Planner.goalViolation plan) ++
        lockedStructure.core_decisions.filterMap
          (Planner.decisionViolation (strToLower (Planner.stringifyPlan plan))) =
        Spec.amendedViolations plan lockedStructure
    rw [hgoal, hdec, Spec.amendedViolations]
  · show (lockedStructure.goals.filterMap (Planner.goalViolation plan) ++
        lockedStructure.core_decisions.filterMap
          (Planner.decisionViolation (strToLower (Planner.stringifyPlan plan)))).isEmpty =
        true ↔ _
    exact List.isEmpty_iff

/-- Concrete instance of the amended validation: a removed locked goal is
reported and `valid` is false. -/
theorem ubot_C8_witness :
    (Planner.validateAgainstLockedStructure
      { id := "p", goals := ["keep"], tasks := [], constraints := [], created_at := 0 }
      { goals := ["keep", "gone"], core_decisions := [], locked_at_round := 1 }).violations =
      ["Locked goal removed: \"gone\""] := by
  rw [(ubot_C8_locked_validation _ _).1]
  rfl

/-- C8 counterexample: for the core decision `"aaaaa<TAB>bbbbb"` (one token
under the source's space-splitting, two tokens under the claim's
whitespace-splitting) against a plan whose goals are `aaaaa` and `bbbbb`,
the source reports a violation while the claim as stated predicts none. -/
theorem ubot_C8_counterexample :
    (Planner.validateAgainstLockedStructure
      { id := "p", goals := ["aaaaa", "bbbbb"], tasks := [], constraints := []
        created_at := 0 }
      { goals := [], core_decisions := ["aaaaa\tbbbbb"], locked_at_round := 1 }).violations =
      ["Core decision may be violated: \"aaaaa\tbbbbb\""] ∧
    (Planner.validateAgainstLockedStructure
      { id := "p", goals := ["aaaaa", "bbbbb"], tasks := [], constraints := []
        created_at := 0 }
      { goals := [], core_decisions := ["aaaaa\tbbbbb"], locked_at_round := 1 }).valid =
      false ∧
    Spec.claimViolations
      { id := "p", goals := ["aaaaa", "bbbbb"], tasks := [], constraints := []
        created_at := 0 }
      { goals := [], core_decisions := ["aaaaa\tbbbbb"], locked_at_round := 1 } = [] := by
  refine ⟨?_, ?_, ?_⟩ <;> with_unfolding_all decide

/-! ## Round-step lemmas for the orchestrator -/

/-- The locking step only touches the locked structure. -/
theorem lockIfFirst_fields (st : Orchestration.OrchestratorState) (plan : Plan) (n : Nat) :
    (Orchestration.lockIfFirst st plan n).currentRound.number = st.currentRound.number ∧
    (Orchestration.lockIfFirst st plan n).currentRound.phase = st.currentRound.phase ∧
    (Orchestration.lockIfFirst st plan n).currentRound.plan = st.currentRound.plan ∧
    (Orchestration.lockIfFirst st plan n).roundHistory = st.roundHistory ∧
    (Orchestration.lockIfFirst st plan n).isRunning = st.isRunning ∧
    (Orchestration.lockIfFirst st plan n).lastResult = st.lastResult ∧
    (Orchestration.lockIfFirst st plan n).goal = st.goal ∧
    (Orchestration.lockIfFirst st plan n).context = st.context := by
  rw [Orchestration.lockIfFirst]
  split <;> exact ⟨rfl, rfl, rfl, rfl, rfl, rfl, rfl, rfl⟩

/-- The evaluation/stability/decision tail leaves the round identity and
the run bookkeeping untouched. -/
theorem roundTail_fields (provider : Orchestration.AiProvider)
    (cfg : Orchestration.OrchestratorConfig) (st3 : Orchestration.OrchestratorState)
    (n : Nat) (plan : Plan) :
    (Orchestration.roundTail provider cfg st3 n plan).2.currentRound.number =
      st3.currentRound.number ∧
    (Orchestration.roundTail provider cfg st3 n plan).2.currentRound.phase =
      st3.currentRound.phase ∧
    (Orchestration.roundTail provider cfg st3 n plan).2.currentRound.plan =
      st3.currentRound.plan ∧
    (Orchestration.roundTail provider cfg st3 n plan).2.currentRound.locked_structure =
      st3.currentRound.locked_structure ∧
    (Orchestration.roundTail provider cfg st3 n plan).2.roundHistory = st3.roundHistory ∧
    (Orchestration.roundTail provider cfg st3 n plan).2.isRunning = st3.isRunning ∧
    (Orchestration.roundTail provider cfg st3 n plan).2.lastResult = st3.lastResult ∧
    (Orchestration.roundTail provider cfg st3 n plan).2.goal = st3.goal ∧
    (Orchestration.roundTail provider cfg st3 n plan).2.context = st3.context := by
  rw [Orchestration.roundTail]
  cases Orchestration.evaluatePlan provider st3 plan with
  | error e => exact ⟨rfl, rfl, rfl, rfl, rfl, rfl, rfl, rfl, rfl⟩
  | ok evaluation => exact ⟨rfl, rfl, rfl, rfl, rfl, rfl, rfl, rfl, rfl⟩

/-- A completed tail reports round `n` and the decision the engine makes on
the updated state. -/
theorem roundTail_ok (provider : Orchestration.AiProvider)
    (cfg : Orchestration.OrchestratorConfig) (st3 : Orchestration.OrchestratorState)
    (n : Nat) (plan : Plan) (rr : Orchestration.RoundResult)
    (st' : Orchestration.OrchestratorState)
    (h : Orchestration.roundTail provider cfg st3 n plan = (Except.ok rr, st')) :
    rr.round = n ∧
    rr.decision = Decision.makeTerminationDecision
      { currentRound := st'.currentRound
        roundHistory := st'.roundHistory
        latestEvaluation := rr.evaluation
        latestStability := rr.stability }
      { maxRounds := cfg.maxRounds
        stabilityThreshold := cfg.stabilityThreshold
        goalDivergenceLimit := 2 } := by
  rw [Orchestration.roundTail] at h
  cases he : Orchestration.evaluatePlan provider st3 plan with
  | error e =>
    rw [he] at h
    simp at h
  | ok evaluation =>
    rw [he] at h
    simp only [Prod.mk.injEq] at h
    obtain ⟨h1, h2⟩ := h
    injection h1 with h1
    subst h1
    subst h2
    exact ⟨rfl, rfl⟩

/-- One round always increments the current round number by one, whether it
completes or throws part-way, and never touches the run bookkeeping. -/
theorem executeRound_fields (provider : Orchestration.AiProvider)
    (cfg : Orchestration.OrchestratorConfig) (st : Orchestration.OrchestratorState) :
    (Orchestration.executeRound provider cfg st).2.currentRound.number =
      st.currentRound.number + 1 ∧
    (Orchestration.executeRound provider cfg st).2.isRunning = st.isRunning ∧
    (Orchestration.executeRound provider cfg st).2.lastResult = st.lastResult ∧
    (Orchestration.executeRound provider cfg st).2.goal = st.goal ∧
    (Orchestration.executeRound provider cfg st).2.context = st.context := by
  rw [Orchestration.executeRound]
  cases hg : Orchestration.generatePlan provider (Orchestration.startNewRound st) with
  | error e => exact ⟨rfl, rfl, rfl, rfl, rfl⟩
  | ok plan =>
    obtain ⟨f1, f2, f3, f4, f5, f6, f7, f8, f9⟩ := roundTail_fields provider cfg
      (Orchestration.lockIfFirst
        (Orchestration.recordPlan (Orchestration.startNewRound st) plan) plan
        (Orchestration.startNewRound st).currentRound.number)
      (Orchestration.startNewRound st).currentRound.number plan
    obtain ⟨g1, g2, g3, g4, g5, g6, g7, g8⟩ := lockIfFirst_fields
      (Orchestration.recordPlan (Orchestration.startNewRound st) plan) plan
      (Orchestration.startNewRound st).currentRound.number
    exact ⟨by rw [f1, g1]; rfl, by rw [f6, g5]; rfl, by rw [f7, g6]; rfl,
      by rw [f8, g7]; rfl, by rw [f9, g8]; rfl⟩

/-- A completed round reports the incremented round number and the decision
the engine makes on the updated state. -/
theorem executeRound_ok (provider : Orchestration.AiProvider)
    (cfg : Orchestration.OrchestratorConfig) (st : Orchestration.OrchestratorState)
    (rr : Orchestration.RoundResult) (st' : Orchestration.OrchestratorState)
    (h : Orchestration.executeRound provider cfg st = (Except.ok rr, st')) :
    rr.round = st.currentRound.number + 1 ∧
    st'.currentRound.number = st.currentRound.number + 1 ∧
    rr.decision = Decision.makeTerminationDecision
      { currentRound := st'.currentRound
        roundHistory := st'.roundHistory
        latestEvaluation := rr.evaluation
        latestStability := rr.stability }
      { maxRounds := cfg.maxRounds
        stabilityThreshold := cfg.stabilityThreshold
        goalDivergenceLimit := 2 } := by
  have hnum := (executeRound_fields provider cfg st).1
  rw [h] at hnum
  rw [Orchestration.executeRound] at h
  cases hg : Orchestration.generatePlan provider (Orchestration.startNewRound st) with
  | error e =>
    rw [hg] at h
    simp at h
  | ok plan =>
    rw [hg] at h
    obtain ⟨hr, hd⟩ := roundTail_ok provider cfg _ _ plan rr st' h
    exact ⟨by rw [hr]; rfl, hnum, hd⟩

/-! ## Claim C3 -/

/-- Once the round number reaches `maxRounds`, every branch the decision
engine can still take terminates. -/
theorem decision_terminates_at_max (ctx : Decision.DecisionContext)
    (cfg : Decision.DecisionEngineConfig) (h : cfg.maxRounds ≤ ctx.currentRound.number) :
    (Decision.makeTerminationDecision ctx cfg).should_terminate = true := by
  rw [Decision.makeTerminationDecision]
  by_cases hc1 : ctx.latestEvaluation.missing.length = 0 ∧
      ctx.latestEvaluation.contradictions.length = 0
  · rw [if_pos hc1]
  · rw [if_neg hc1]
    by_cases hc2 : cfg.stabilityThreshold ≤ ctx.latestStability.overall_stability
    · rw [if_pos hc2]
    · rw [if_neg hc2, if_pos h]

/-- Unfolding equation of the loop at positive fuel. -/
theorem execLoop_succ (provider : Orchestration.AiProvider)
    (cfg : Orchestration.OrchestratorConfig) (fuel : Nat)
    (st : Orchestration.OrchestratorState) :
    Orchestration.execLoop provider cfg (fuel + 1) st =
      (match Orchestration.executeRound provider cfg st with
       | (Except.error e, st') => Orchestration.LoopOutcome.failed e st'
       | (Except.ok rr, st') =>
         if rr.decision.should_terminate then
           Orchestration.LoopOutcome.finished (Orchestration.terminate rr st').1
             (Orchestration.terminate rr st').2
         else Orchestration.execLoop provider cfg fuel st') := rfl

/-- The loop bound: entered below `maxRounds` with enough fuel, the loop
never runs out of fuel, every reachable final state stays at or below
`maxRounds`, and a finished run reports at most `maxRounds` rounds. -/
theorem execLoop_bound (provider : Orchestration.AiProvider)
    (cfg : Orchestration.OrchestratorConfig) :
    ∀ (fuel : Nat) (st : Orchestration.OrchestratorState),
      st.currentRound.number < cfg.maxRounds →
      cfg.maxRounds ≤ st.currentRound.number + fuel →
      (∀ st'', Orchestration.execLoop provider cfg fuel st ≠
        Orchestration.LoopOutcome.outOfFuel st'') ∧
      (Orchestration.execLoop provider cfg fuel st).state.currentRound.number ≤
        cfg.maxRounds ∧
      (∀ res st'', Orchestration.execLoop provider cfg fuel st =
        Orchestration.LoopOutcome.finished res st'' → res.round ≤ cfg.maxRounds) := by
  intro fuel
  induction fuel with
  | zero => intro st h1 h2; omega
  | succ fuel ih =>
    intro st h1 h2
    obtain ⟨out, st', hstep⟩ : ∃ out st',
        Orchestration.executeRound provider cfg st = (out, st') := ⟨_, _, rfl⟩
    have hnum : st'.currentRound.number = st.currentRound.number + 1 := by
      have := (executeRound_fields provider cfg st).1
      rw [hstep] at this
      exact this
    cases out with
    | error e =>
      have hred : Orchestration.execLoop provider cfg (fuel + 1) st =
          Orchestration.LoopOutcome.failed e st' := by
        rw [execLoop_succ, hstep]
      rw [hred]
      refine ⟨?_, ?_, ?_⟩
      · intro st'' hc
        cases hc
      · show st'.currentRound.number ≤ cfg.maxRounds
        omega
      · intro res st'' hc
        cases hc
    | ok rr =>
      obtain ⟨hrr, _, hdec⟩ := executeRound_ok provider cfg st rr st' hstep
      by_cases hterm : rr.decision.should_terminate = true
      · have hred : Orchestration.execLoop provider cfg (fuel + 1) st =
            Orchestration.LoopOutcome.finished (Orchestration.terminate rr st').1
              (Orchestration.terminate rr st').2 := by
          rw [execLoop_succ, hstep]
          show (if rr.decision.should_terminate = true then
              Orchestration.LoopOutcome.finished (Orchestration.terminate rr st').1
                (Orchestration.terminate rr st').2
            else Orchestration.execLoop provider cfg fuel st') = _
          rw [if_pos hterm]
        rw [hred]
        refine ⟨?_, ?_, ?_⟩
        · intro st'' hc
          cases hc
        · show (Orchestration.terminate rr st').2.currentRound.number ≤ cfg.maxRounds
          have heq : (Orchestration.terminate rr st').2.currentRound.number =
            st'.currentRound.number := rfl
          omega
        · intro res st'' hc
          have hres : res = (Orchestration.terminate rr st').1 := by
            cases hc
            rfl
          have hround : (Orchestration.terminate rr st').1.round = rr.round := rfl
          rw [hres, hround, hrr]
          omega
      · have hred : Orchestration.execLoop provider cfg (fuel + 1) st =
            Orchestration.execLoop provider cfg fuel st' := by
          rw [execLoop_succ, hstep]
          show (if rr.decision.should_terminate = true then
              Orchestration.LoopOutcome.finished (Orchestration.terminate rr st').1
                (Orchestration.terminate rr st').2
            else Orchestration.execLoop provider cfg fuel st') = _
          rw [if_neg hterm]
        rw [hred]
        have hlt : st'.currentRound.number < cfg.maxRounds := by
          rcases Nat.lt_or_ge st'.currentRound.number cfg.maxRounds with hlt | hge
          · exact hlt
          · exfalso
            apply hterm
            rw [hdec]
            exact decision_terminates_at_max _ _ hge
        exact ih st' hlt (by omega)

/-- C3: with a positive `maxRounds` and fuel covering it, a run from the
initial state never exhausts the loop (whenever the current round number
reaches `maxRounds`, the termination decision has
`should_terminate = true`, by a higher-priority rule or by the hard
limit), the final state's round number never exceeds `maxRounds`, and a
finished run reports at most `maxRounds` executed rounds. -/
theorem ubot_C3_round_bound (provider : Orchestration.AiProvider)
    (cfg : Orchestration.OrchestratorConfig) (goal context : String) (fuel : Nat)
    (hmax : 1 ≤ cfg.maxRounds) (hfuel : cfg.maxRounds ≤ fuel) :
    (∀ ctx dcfg, dcfg.maxRounds ≤ ctx.currentRound.number →
      (Decision.makeTerminationDecision ctx dcfg).should_terminate = true) ∧
    (∀ st'', Orchestration.execLoop provider cfg fuel
      (Orchestration.createInitialState goal context) ≠
      Orchestration.LoopOutcome.outOfFuel st'') ∧
    (Orchestration.execLoop provider cfg fuel
      (Orchestration.createInitialState goal context)).state.currentRound.number ≤
      cfg.maxRounds ∧
    (∀ res st'', Orchestration.execLoop provider cfg fuel
      (Orchestration.createInitialState goal context) =
      Orchestration.LoopOutcome.finished res st'' → res.round ≤ cfg.maxRounds) := by
  obtain ⟨ha, hb, hc⟩ := execLoop_bound provider cfg fuel
    (Orchestration.createInitialState goal context) (by exact hmax)
    (by show cfg.maxRounds ≤ 0 + fuel; omega)
  exact ⟨fun ctx dcfg => decision_terminates_at_max ctx dcfg, ha, hb, hc⟩

/-- Concrete instance of the round bound: a provider that always throws
fails in round 1, within the bound. -/
theorem ubot_C3_witness :
    (Orchestration.execLoop (fun _ _ => Except.error "boom")
      Orchestration.orchestratorDefaultConfig 3
      (Orchestration.createInitialState "g" "")).state.currentRound.number ≤ 3 :=
  (ubot_C3_round_bound (fun _ _ => Except.error "boom")
    Orchestration.orchestratorDefaultConfig "g" "" 3 (by decide) (by decide)).2.2.1

/-! ## Claim C4 -/

/-- On a failing run the loop never touches `isRunning` or `lastResult`
(only `terminate`, on the success path, does). -/
theorem execLoop_failed_preserves (provider : Orchestration.AiProvider)
    (cfg : Orchestration.OrchestratorConfig) :
    ∀ (fuel : Nat) (st : Orchestration.OrchestratorState) (e : String)
      (st' : Orchestration.OrchestratorState),
      Orchestration.execLoop provider cfg fuel st = Orchestration.LoopOutcome.failed e st' →
      st'.isRunning = st.isRunning ∧ st'.lastResult = st.lastResult := by
  intro fuel
  induction fuel with
  | zero => intro st e st' h; cases h
  | succ fuel ih =>
    intro st e st' h
    obtain ⟨out, stm, hstep⟩ : ∃ out stm,
        Orchestration.executeRound provider cfg st = (out, stm) := ⟨_, _, rfl⟩
    have hpres := executeRound_fields provider cfg st
    rw [hstep] at hpres
    cases out with
    | error e0 =>
      have hred : Orchestration.execLoop provider cfg (fuel + 1) st =
          Orchestration.LoopOutcome.failed e0 stm := by
        rw [execLoop_succ, hstep]
      rw [hred] at h
      cases h
      exact ⟨hpres.2.1, hpres.2.2.1⟩
    | ok rr =>
      by_cases hterm : rr.decision.should_terminate = true
      · have hred : Orchestration.execLoop provider cfg (fuel + 1) st =
            Orchestration.LoopOutcome.finished (Orchestration.terminate rr stm).1
              (Orchestration.terminate rr stm).2 := by
          rw [execLoop_succ, hstep]
          show (if rr.decision.should_terminate = true then
              Orchestration.LoopOutcome.finished (Orchestration.terminate rr stm).1
                (Orchestration.terminate rr stm).2
            else Orchestration.execLoop provider cfg fuel stm) = _
          rw [if_pos hterm]
        rw [hred] at h
        cases h
      · have hred : Orchestration.execLoop provider cfg (fuel + 1) st =
            Orchestration.execLoop provider cfg fuel stm := by
          rw [execLoop_succ, hstep]
          show (if rr.decision.should_terminate = true then
              Orchestration.LoopOutcome.finished (Orchestration.terminate rr stm).1
                (Orchestration.terminate rr stm).2
            else Orchestration.execLoop provider cfg fuel stm) = _
          rw [if_neg hterm]
        rw [hred] at h
        obtain ⟨h1, h2⟩ := ih stm e st' h
        exact ⟨h1.trans hpres.2.1, h2.trans hpres.2.2.1⟩

/-- C4 (amended): when the model function or the plan parser throws, the
exception is not silently dropped: `execute` returns an `ExecutionResult`
with `success = false`, `terminated = true`, the `max_rounds_reached`
sentinel as `termination_reason`, the error message inside `output`, and
`stability` equal to the failing round's computed stability or 0 —  but,
contrary to the original claim, the catch branch does not store this
result in the orchestrator state's `lastResult` (which remains `none`) and
leaves `isRunning` set. -/
theorem ubot_C4_failure_path (provider : Orchestration.AiProvider)
    (cfg : Orchestration.OrchestratorConfig) (goal context : String) (fuel : Nat)
    (e : String) (st : Orchestration.OrchestratorState)
    (h : Orchestration.execLoop provider cfg fuel
      (Orchestration.createInitialState goal context) =
      Orchestration.LoopOutcome.failed e st) :
    Orchestration.execute provider cfg fuel goal context =
      ({ success := false
         output := "Orchestration failed: " ++ e
         round := st.currentRound.number
         stability := (st.currentRound.stability.map (fun s => s.overall_stability)).getD 0
         terminated := true
         termination_reason := some TerminationReason.max_rounds_reached }, st) ∧
    st.lastResult = none ∧ st.isRunning = true := by
  obtain ⟨hrun, hlast⟩ := execLoop_failed_preserves provider cfg fuel
    (Orchestration.createInitialState goal context) e st h
  refine ⟨?_, hlast, hrun⟩
  rw [Orchestration.execute, h]

/-- Concrete failing run: the model function always throws `boom`; the
returned result is the failure record and `lastResult` stays `none`. -/
theorem ubot_C4_witness :
    (Orchestration.execute (fun _ _ => Except.error "boom")
      Orchestration.orchestratorDefaultConfig 3 "g" "").2.lastResult = none ∧
    (Orchestration.execute (fun _ _ => Except.error "boom")
      Orchestration.orchestratorDefaultConfig 3 "g" "").1.success = false := by
  obtain ⟨heq, hlast, _⟩ := ubot_C4_failure_path (fun _ _ => Except.error "boom")
    Orchestration.orchestratorDefaultConfig "g" "" 3 "boom"
    { currentRound :=
        { number := 1, phase := RoundPhase.ARCHITECT, plan := none, evaluation := none
          stability := none, locked_structure := none }
      roundHistory := []
      goal := "g", context := "", isRunning := true, lastResult := none }
    rfl
  rw [heq]
  exact ⟨hlast, rfl⟩

/-- C4 counterexample: on a failing run the orchestrator state's
`lastResult` is *not* set to the returned result — it is still `none`
after `execute` returns, and `isRunning` is still `true`. -/
theorem ubot_C4_counterexample :
    (Orchestration.execute (fun _ _ => Except.error "model unreachable")
      Orchestration.orchestratorDefaultConfig 3 "goal" "").1.success = false ∧
    (Orchestration.execute (fun _ _ => Except.error "model unreachable")
      Orchestration.orchestratorDefaultConfig 3 "goal" "").1.terminated = true ∧
    (Orchestration.execute (fun _ _ => Except.error "model unreachable")
      Orchestration.orchestratorDefaultConfig 3 "goal" "").1.termination_reason =
      some TerminationReason.max_rounds_reached ∧
    (Orchestration.execute (fun _ _ => Except.error "model unreachable")
      Orchestration.orchestratorDefaultConfig 3 "goal" "").1.output =
      "Orchestration failed: model unreachable" ∧
    (Orchestration.execute (fun _ _ => Except.error "model unreachable")
      Orchestration.orchestratorDefaultConfig 3 "goal" "").2.lastResult = none ∧
    (Orchestration.execute (fun _ _ => Except.error "model unreachable")
      Orchestration.orchestratorDefaultConfig 3 "goal" "").2.isRunning = true ∧
    (Orchestration.execute (fun _ _ => Except.error "model unreachable")
      Orchestration.orchestratorDefaultConfig 3 "goal" "").2.lastResult ≠
      some (Orchestration.execute (fun _ _ => Except.error "model unreachable")
        Orchestration.orchestratorDefaultConfig 3 "goal" "").1 := by
  refine ⟨rfl, rfl, rfl, rfl, rfl, rfl, ?_⟩
  intro hc
  rw [show (Orchestration.execute (fun _ _ => Except.error "model unreachable")
      Orchestration.orchestratorDefaultConfig 3 "goal" "").2.lastResult = none from rfl] at hc
  cases hc

/-! ## Claim C6 -/

/-- Every recorded round past the first is a refiner round whose locked
structure is the one derived from the round-1 plan (anchored through the
head of the archived history). -/
def histAnchored (st : Orchestration.OrchestratorState) : Prop :=
  ∀ r ∈ Orchestration.allRounds st, 2 ≤ r.number →
    r.phase = RoundPhase.REFINER ∧
    ∃ r1 p, st.roundHistory.head? = some r1 ∧ r1.number = 1 ∧ r1.plan = some p ∧
      r.locked_structure = some
        { goals := p.goals, core_decisions := p.constraints, locked_at_round := 1 }

/-- The invariant that holds every time the orchestration loop re-enters
`executeRound`. -/
structure EntryInv (st : Orchestration.OrchestratorState) : Prop where
  base0 : st.currentRound.number = 0 → st.roundHistory = []
  anchor : 1 ≤ st.currentRound.number →
    ∃ r1 p, (Orchestration.allRounds st).head? = some r1 ∧ r1.number = 1 ∧
      r1.plan = some p ∧
      st.currentRound.locked_structure = some
        { goals := p.goals, core_decisions := p.constraints, locked_at_round := 1 }
  hinv : histAnchored st

/-- A non-empty head survives appending on the right. -/
theorem head?_append_of_head? {α : Type} (l l' : List α) (a : α) (h : l.head? = some a) :
    (l ++ l').head? = some a := by
  cases l with
  | nil => cases h
  | cons x t => exact h

/-- `histAnchored` only looks at the history, the round number, and — for
rounds past the first — the phase and the locked structure. -/
theorem histAnchored_update (st st' : Orchestration.OrchestratorState)
    (hh : st'.roundHistory = st.roundHistory)
    (hn : st'.currentRound.number = st.currentRound.number)
    (hcond : 2 ≤ st.currentRound.number →
      st'.currentRound.phase = st.currentRound.phase ∧
      st'.currentRound.locked_structure = st.currentRound.locked_structure)
    (h : histAnchored st) : histAnchored st' := by
  intro r hr h2
  rw [Orchestration.allRounds, hh] at hr
  rw [hh]
  rcases List.mem_append.mp hr with hrh | hrc
  · exact h r (List.mem_append_left _ hrh) h2
  · have hrc : r = st'.currentRound := List.mem_singleton.mp hrc
    subst hrc
    rw [hn] at h2
    obtain ⟨hph, hlk⟩ := hcond h2
    obtain ⟨hph', r1, p, hhead, hn1, hp1, hlock⟩ := h st.currentRound
      (List.mem_append_right _ (List.mem_singleton_self _)) h2
    exact ⟨hph.trans hph', r1, p, hhead, hn1, hp1, hlk.trans hlock⟩

/-- Fields of `startNewRound` on a non-initial state. -/
theorem startNewRound_pos (st : Orchestration.OrchestratorState)
    (h : 1 ≤ st.currentRound.number) :
    (Orchestration.startNewRound st).roundHistory =
      st.roundHistory ++ [st.currentRound] ∧
    (Orchestration.startNewRound st).currentRound.phase = RoundPhase.REFINER ∧
    (Orchestration.startNewRound st).currentRound.locked_structure =
      st.currentRound.locked_structure := by
  rw [Orchestration.startNewRound]
  refine ⟨?_, ?_, ?_⟩
  · show (if st.currentRound.number > 0 then st.roundHistory ++ [st.currentRound]
      else st.roundHistory) = _
    rw [if_pos (by omega)]
  · show (if st.currentRound.number + 1 = 1 then RoundPhase.ARCHITECT
      else RoundPhase.REFINER) = _
    rw [if_neg (by omega)]
  · show (if st.currentRound.number + 1 = 1 then none
      else st.currentRound.locked_structure) = _
    rw [if_neg (by omega)]

/-- Fields of `startNewRound` on the initial state. -/
theorem startNewRound_zero (st : Orchestration.OrchestratorState)
    (h : st.currentRound.number = 0) :
    (Orchestration.startNewRound st).roundHistory = st.roundHistory ∧
    (Orchestration.startNewRound st).currentRound.phase = RoundPhase.ARCHITECT ∧
    (Orchestration.startNewRound st).currentRound.locked_structure = none := by
  rw [Orchestration.startNewRound]
  refine ⟨?_, ?_, ?_⟩
  · show (if st.currentRound.number > 0 then st.roundHistory ++ [st.currentRound]
      else st.roundHistory) = _
    rw [if_neg (by omega)]
  · show (if st.currentRound.number + 1 = 1 then RoundPhase.ARCHITECT
      else RoundPhase.REFINER) = _
    rw [if_pos (by omega)]
  · show (if st.currentRound.number + 1 = 1 then none
      else st.currentRound.locked_structure) = _
    rw [if_pos (by omega)]

/-- Starting a new round preserves the anchoring invariant. -/
theorem startNewRound_histAnchored (st : Orchestration.OrchestratorState)
    (hin : EntryInv st) : histAnchored (Orchestration.startNewRound st) := by
  rcases Nat.eq_zero_or_pos st.currentRound.number with h0 | hpos
  · obtain ⟨hh, _, _⟩ := startNewRound_zero st h0
    intro r hr h2
    rw [Orchestration.allRounds, hh, hin.base0 h0] at hr
    simp only [List.nil_append, List.mem_singleton] at hr
    subst hr
    have : (Orchestration.startNewRound st).currentRound.number =
      st.currentRound.number + 1 := rfl
    omega
  · obtain ⟨hh, hph, hlk⟩ := startNewRound_pos st hpos
    intro r hr h2
    rw [Orchestration.allRounds, hh] at hr
    rw [hh]
    rcases List.mem_append.mp hr with hr | hr
    · rcases List.mem_append.mp hr with hrh | hrc
      · obtain ⟨hph', r1, p, hhead, hn1, hp1, hlock⟩ := hin.hinv r
          (List.mem_append_left _ hrh) h2
        exact ⟨hph', r1, p, head?_append_of_head? _ _ _ hhead, hn1, hp1, hlock⟩
      · have hrc : r = st.currentRound := List.mem_singleton.mp hrc
        subst hrc
        obtain ⟨hph', r1, p, hhead, hn1, hp1, hlock⟩ := hin.hinv st.currentRound
          (List.mem_append_right _ (List.mem_singleton_self _)) h2
        exact ⟨hph', r1, p, head?_append_of_head? _ _ _ hhead, hn1, hp1, hlock⟩
    · have hr : r = (Orchestration.startNewRound st).currentRound := List.mem_singleton.mp hr
      subst hr
      obtain ⟨r1, p, hhead, hn1, hp1, hlock⟩ := hin.anchor hpos
      exact ⟨hph, r1, p, hhead, hn1, hp1, hlk.trans hlock⟩

/-- The locked structure after the locking step. -/
theorem lockIfFirst_locked (st : Orchestration.OrchestratorState) (plan : Plan) (n : Nat) :
    (Orchestration.lockIfFirst st plan n).currentRound.locked_structure =
      (if n = 1 then some (Planner.createLockedStructure plan n)
       else st.currentRound.locked_structure) := by
  rw [Orchestration.lockIfFirst]
  split
  · next h => rfl
  · next h => rfl

/-- A completed tail's round result carries the generated plan, and the
final state agrees with the input state on everything the anchoring
invariant inspects. -/
theorem roundTail_ok_state (provider : Orchestration.AiProvider)
    (cfg : Orchestration.OrchestratorConfig) (st3 : Orchestration.OrchestratorState)
    (n : Nat) (plan : Plan) (rr : Orchestration.RoundResult)
    (st' : Orchestration.OrchestratorState)
    (h : Orchestration.roundTail provider cfg st3 n plan = (Except.ok rr, st')) :
    rr.plan = plan ∧
    st'.roundHistory = st3.roundHistory ∧
    st'.currentRound.number = st3.currentRound.number ∧
    st'.currentRound.phase = st3.currentRound.phase ∧
    st'.currentRound.plan = st3.currentRound.plan ∧
    st'.currentRound.locked_structure = st3.currentRound.locked_structure := by
  have hf := roundTail_fields provider cfg st3 n plan
  rw [h] at hf
  refine ⟨?_, hf.2.2.2.2.1, hf.1, hf.2.1, hf.2.2.1, hf.2.2.2.1⟩
  rw [Orchestration.roundTail] at h
  cases he : Orchestration.evaluatePlan provider st3 plan with
  | error e =>
    rw [he] at h
    simp at h
  | ok evaluation =>
    rw [he] at h
    simp only [Prod.mk.injEq] at h
    obtain ⟨h1, _⟩ := h
    injection h1 with h1
    rw [← h1]

/-- The state a successfully completed round hands back to the loop. -/
theorem executeRound_ok_state (provider : Orchestration.AiProvider)
    (cfg : Orchestration.OrchestratorConfig) (st : Orchestration.OrchestratorState)
    (rr : Orchestration.RoundResult) (st' : Orchestration.OrchestratorState)
    (h : Orchestration.executeRound provider cfg st = (Except.ok rr, st')) :
    st'.roundHistory = (Orchestration.startNewRound st).roundHistory ∧
    st'.currentRound.number = st.currentRound.number + 1 ∧
    st'.currentRound.phase = (Orchestration.startNewRound st).currentRound.phase ∧
    st'.currentRound.plan = some rr.plan ∧
    st'.currentRound.locked_structure =
      (if st.currentRound.number = 0 then
        some (Planner.createLockedStructure rr.plan 1)
       else st.currentRound.locked_structure) := by
  rw [Orchestration.executeRound] at h
  cases hg : Orchestration.generatePlan provider (Orchestration.startNewRound st) with
  | error e =>
    rw [hg] at h
    simp at h
  | ok plan =>
    rw [hg] at h
    obtain ⟨hplan, hh, hn, hph, hpl, hlk⟩ := roundTail_ok_state provider cfg _ _ plan rr st' h
    subst hplan
    obtain ⟨g1, g2, g3, g4, _, _, _, _⟩ := lockIfFirst_fields
      (Orchestration.recordPlan (Orchestration.startNewRound st) rr.plan) rr.plan
      (Orchestration.startNewRound st).currentRound.number
    have hsn : (Orchestration.startNewRound st).currentRound.number =
      st.currentRound.number + 1 := rfl
    refine ⟨?_, ?_, ?_, ?_, ?_⟩
    · rw [hh, g4]
      rfl
    · rw [hn, g1]
      exact hsn
    · rw [hph, g2]
      rfl
    · rw [hpl, g3]
      rfl
    · rw [hlk, lockIfFirst_locked, hsn]
      by_cases h0 : st.currentRound.number = 0
      · rw [if_pos (by omega), if_pos h0, h0]
      · rw [if_neg (by omega), if_neg h0]
        show (if st.currentRound.number + 1 = 1 then none
          else st.currentRound.locked_structure) = _
        rw [if_neg (by omega)]

/-- A successfully completed round re-establishes the entry invariant. -/
theorem executeRound_entryInv (provider : Orchestration.AiProvider)
    (cfg : Orchestration.OrchestratorConfig) (st : Orchestration.OrchestratorState)
    (rr : Orchestration.RoundResult) (st' : Orchestration.OrchestratorState)
    (hin : EntryInv st)
    (h : Orchestration.executeRound provider cfg st = (Except.ok rr, st')) :
    EntryInv st' := by
  obtain ⟨hh, hn, hph, hpl, hlk⟩ := executeRound_ok_state provider cfg st rr st' h
  refine ⟨?_, ?_, ?_⟩
  · intro h0
    omega
  · intro _
    rcases Nat.eq_zero_or_pos st.currentRound.number with h0 | hpos
    · refine ⟨st'.currentRound, rr.plan, ?_, ?_, hpl, ?_⟩
      · have hhist : st'.roundHistory = ([] : List RoundState) := by
          rw [hh, (startNewRound_zero st h0).1, hin.base0 h0]
        rw [Orchestration.allRounds, hhist]
        rfl
      · omega
      · rw [hlk, if_pos h0]
        rfl
    · obtain ⟨r1, p, hhead, hn1, hp1, hlock⟩ := hin.anchor hpos
      refine ⟨r1, p, ?_, hn1, hp1, ?_⟩
      · have hhist : st'.roundHistory = Orchestration.allRounds st := by
          rw [hh, (startNewRound_pos st hpos).1]
          rfl
        rw [Orchestration.allRounds, hhist]
        exact head?_append_of_head? _ _ _ hhead
      · rw [hlk, if_neg (by omega)]
        exact hlock
  · have h1 := startNewRound_histAnchored st hin
    refine histAnchored_update (Orchestration.startNewRound st) st' hh ?_ ?_ h1
    · rw [hn]
      rfl
    · intro h2
      refine ⟨hph, ?_⟩
      have hsn : (Orchestration.startNewRound st).currentRound.number =
        st.currentRound.number + 1 := rfl
      have hpos : 1 ≤ st.currentRound.number := by omega
      rw [hlk, if_neg (by omega), (startNewRound_pos st hpos).2.2]

/-- A round that throws still leaves an anchored state behind (the thrown
state is the partially updated one the source mutated in place). -/
theorem executeRound_err_histAnchored (provider : Orchestration.AiProvider)
    (cfg : Orchestration.OrchestratorConfig) (st : Orchestration.OrchestratorState)
    (e : String) (st' : Orchestration.OrchestratorState)
    (hin : EntryInv st)
    (h : Orchestration.executeRound provider cfg st = (Except.error e, st')) :
    histAnchored st' := by
  have h1 := startNewRound_histAnchored st hin
  rw [Orchestration.executeRound] at h
  cases hg : Orchestration.generatePlan provider (Orchestration.startNewRound st) with
  | error e' =>
    rw [hg] at h
    simp only [Prod.mk.injEq] at h
    rw [← h.2]
    exact h1
  | ok plan =>
    rw [hg] at h
    set st1 := Orchestration.startNewRound st with hst1
    set st2 := Orchestration.recordPlan st1 plan with hst2
    set st3 := Orchestration.lockIfFirst st2 plan st1.currentRound.number with hst3
    have h2 : histAnchored st2 :=
      histAnchored_update st1 st2 rfl rfl (fun _ => ⟨rfl, rfl⟩) h1
    have h3 : histAnchored st3 := by
      refine histAnchored_update st2 st3 ?_ ?_ ?_ h2
      · obtain ⟨_, _, _, g4, _, _, _, _⟩ := lockIfFirst_fields st2 plan st1.currentRound.number
        exact g4
      · obtain ⟨g1, _, _, _, _, _, _, _⟩ := lockIfFirst_fields st2 plan st1.currentRound.number
        exact g1
      · intro h2n
        obtain ⟨_, g2, _, _, _, _, _, _⟩ := lockIfFirst_fields st2 plan st1.currentRound.number
        refine ⟨g2, ?_⟩
        rw [lockIfFirst_locked]
        have hnum : st2.currentRound.number = st1.currentRound.number := rfl
        rw [if_neg (by omega)]
    have h' : Orchestration.roundTail provider cfg st3 st1.currentRound.number plan =
        (Except.error e, st') := h
    have hsnd : st' = (Orchestration.roundTail provider cfg st3
        st1.currentRound.number plan).2 := by rw [h']
    obtain ⟨f1, f2, _, f4, f5, _, _, _, _⟩ := roundTail_fields provider cfg st3
      st1.currentRound.number plan
    rw [hsnd]
    exact histAnchored_update st3 _ f5 f1 (fun _ => ⟨f2, f4⟩) h3

/-- The loop preserves anchoring: from any state satisfying the entry
invariant, the state the loop hands back (however it exits) is anchored. -/
theorem execLoop_histAnchored (provider : Orchestration.AiProvider)
    (cfg : Orchestration.OrchestratorConfig) :
    ∀ fuel (st : Orchestration.OrchestratorState), EntryInv st →
      histAnchored ((Orchestration.execLoop provider cfg fuel st).state) := by
  intro fuel
  induction fuel with
  | zero =>
    intro st hin
    exact hin.hinv
  | succ fuel ih =>
    intro st hin
    rw [execLoop_succ]
    cases hstep : Orchestration.executeRound provider cfg st with
    | mk res st' =>
      cases res with
      | error e =>
        exact executeRound_err_histAnchored provider cfg st e st' hin hstep
      | ok rr =>
        have hin' : EntryInv st' :=
          executeRound_entryInv provider cfg st rr st' hin hstep
        show histAnchored
          ((if rr.decision.should_terminate = true then
              Orchestration.LoopOutcome.finished (Orchestration.terminate rr st').1
                (Orchestration.terminate rr st').2
            else Orchestration.execLoop provider cfg fuel st').state)
        by_cases hterm : rr.decision.should_terminate = true
        · rw [if_pos hterm]
          show histAnchored (Orchestration.terminate rr st').2
          exact histAnchored_update st' _ rfl rfl (fun _ => ⟨rfl, rfl⟩) hin'.hinv
        · rw [if_neg hterm]
          exact ih st' hin'

/-- The reset state `execute` starts from satisfies the entry invariant. -/
theorem createInitialState_entryInv (goal context : String) :
    EntryInv (Orchestration.createInitialState goal context) := by
  refine ⟨fun _ => rfl, ?_, ?_⟩
  · intro h
    have h0 : (Orchestration.createInitialState goal context).currentRound.number = 0 := rfl
    omega
  · intro r hr h2
    have hh : (Orchestration.createInitialState goal context).roundHistory = [] := rfl
    rw [Orchestration.allRounds, hh, List.nil_append, List.mem_singleton] at hr
    subst hr
    have h0 : (Orchestration.createInitialState goal context).currentRound.number = 0 := rfl
    omega

/-- The post-loop fallback leaves the recorded rounds untouched. -/
theorem fallbackTerminal_rounds (st : Orchestration.OrchestratorState) :
    (Orchestration.fallbackTerminal st).2.roundHistory = st.roundHistory ∧
    (Orchestration.fallbackTerminal st).2.currentRound = st.currentRound := by
  rw [Orchestration.fallbackTerminal]
  split
  · exact ⟨rfl, rfl⟩
  · exact ⟨rfl, rfl⟩

/-- Whatever exit the run takes, the final state of `execute` is anchored. -/
theorem execute_histAnchored (provider : Orchestration.AiProvider)
    (cfg : Orchestration.OrchestratorConfig) (fuel : Nat) (goal context : String) :
    histAnchored (Orchestration.execute provider cfg fuel goal context).2 := by
  have hL := execLoop_histAnchored provider cfg fuel _ (createInitialState_entryInv goal context)
  cases hE : Orchestration.execLoop provider cfg fuel
      (Orchestration.createInitialState goal context) with
  | finished result st =>
    rw [hE] at hL
    have h2 : (Orchestration.execute provider cfg fuel goal context).2 = st := by
      rw [Orchestration.execute, hE]
    rw [h2]
    exact hL
  | failed e st =>
    rw [hE] at hL
    have h2 : (Orchestration.execute provider cfg fuel goal context).2 = st := by
      rw [Orchestration.execute, hE]
    rw [h2]
    exact hL
  | outOfFuel st =>
    rw [hE] at hL
    have h2 : (Orchestration.execute provider cfg fuel goal context).2 =
        (Orchestration.fallbackTerminal st).2 := by
      rw [Orchestration.execute, hE]
    rw [h2]
    obtain ⟨hh, hc⟩ := fallbackTerminal_rounds st
    exact histAnchored_update st _ hh (congrArg RoundState.number hc)
      (fun _ => ⟨congrArg RoundState.phase hc, congrArg RoundState.locked_structure hc⟩) hL

/-- Architect response used by the concrete C6 run. -/
def c6PlanResp : String := "\x7b\"goals\":[\"g1\"],\"tasks\":[],\"constraints\":[\"c1\"]\x7d"

/-- First blind-judge response of the concrete C6 run (one contradiction and
one missing item, so round 1 continues). -/
def c6EvalResp1 : String := "\x7b\"vs_previous\":\"same\",\"vs_goal\":\"same\",\"contradictions\":[\"cx\"],\"missing\":[\"m\"],\"risks\":[]\x7d"

/-- Second blind-judge response of the concrete C6 run (clean, so round 2
terminates with task_complete). -/
def c6EvalResp2 : String := "\x7b\"vs_previous\":\"same\",\"vs_goal\":\"same\",\"contradictions\":[],\"missing\":[],\"risks\":[]\x7d"

/-- The model function of the concrete C6 run: plan, eval, plan, eval. -/
def c6Provider : Orchestration.AiProvider := fun slot _ =>
  Except.ok (match slot with
    | 0 => c6PlanResp
    | 1 => c6EvalResp1
    | 2 => c6PlanResp
    | _ => c6EvalResp2)

/-- A concrete non-initial state used to exercise the carrying step. -/
def c6CarryState : Orchestration.OrchestratorState :=
  { currentRound :=
      { number := 1
        phase := RoundPhase.ARCHITECT
        plan := none
        evaluation := none
        stability := none
        locked_structure :=
          some { goals := ["g1"], core_decisions := ["c1"], locked_at_round := 1 } }
    roundHistory := []
    goal := "goal"
    context := ""
    isRunning := true
    lastResult := none }

/-- C6: `startNewRound` carries the locked structure (and the REFINER phase)
into every round after the first, and in the final state of any run every
recorded round past the first has phase REFINER and a locked structure equal
by value to the one created from the round-1 plan: goals = that plan's
goals, core_decisions = that plan's constraints, locked_at_round = 1. -/
theorem ubot_C6_locked_structure (provider : Orchestration.AiProvider)
    (cfg : Orchestration.OrchestratorConfig) (fuel : Nat) (goal context : String) :
    (∀ st : Orchestration.OrchestratorState, 1 ≤ st.currentRound.number →
      (Orchestration.startNewRound st).currentRound.phase = RoundPhase.REFINER ∧
      (Orchestration.startNewRound st).currentRound.locked_structure =
        st.currentRound.locked_structure) ∧
    (∀ r ∈ Orchestration.allRounds (Orchestration.execute provider cfg fuel goal context).2,
      2 ≤ r.number →
      r.phase = RoundPhase.REFINER ∧
      ∃ r1 p,
        (Orchestration.execute provider cfg fuel goal context).2.roundHistory.head? =
          some r1 ∧
        r1.number = 1 ∧ r1.plan = some p ∧
        r.locked_structure = some (Planner.createLockedStructure p 1)) := by
  constructor
  · intro st h
    exact ⟨(startNewRound_pos st h).2.1, (startNewRound_pos st h).2.2⟩
  · intro r hr h2
    obtain ⟨hph, r1, p, hhead, hn1, hp1, hlock⟩ :=
      execute_histAnchored provider cfg fuel goal context r hr h2
    exact ⟨hph, r1, p, hhead, hn1, hp1, hlock⟩

/-- Witness for C6: on a concrete two-round run (round 1 continues, round 2
terminates with task_complete), the final current round is a REFINER round
whose locked structure is the one created from the archived round-1 plan;
and at a concrete round-1 state, `startNewRound` moves to REFINER and keeps
the locked structure. -/
theorem ubot_C6_witness :
    ((Orchestration.startNewRound c6CarryState).currentRound.phase = RoundPhase.REFINER ∧
     (Orchestration.startNewRound c6CarryState).currentRound.locked_structure =
       c6CarryState.currentRound.locked_structure) ∧
    ((Orchestration.execute c6Provider Orchestration.orchestratorDefaultConfig
        3 "goal" "").2.currentRound.phase = RoundPhase.REFINER ∧
     ∃ r1 p,
       (Orchestration.execute c6Provider Orchestration.orchestratorDefaultConfig
         3 "goal" "").2.roundHistory.head? = some r1 ∧
       r1.number = 1 ∧ r1.plan = some p ∧
       (Orchestration.execute c6Provider Orchestration.orchestratorDefaultConfig
         3 "goal" "").2.currentRound.locked_structure =
         some (Planner.createLockedStructure p 1)) := by
  refine ⟨(ubot_C6_locked_structure c6Provider Orchestration.orchestratorDefaultConfig
    3 "goal" "").1 c6CarryState (by decide), ?_⟩
  exact (ubot_C6_locked_structure c6Provider Orchestration.orchestratorDefaultConfig
      3 "goal" "").2
    (Orchestration.execute c6Provider Orchestration.orchestratorDefaultConfig
      3 "goal" "").2.currentRound
    (by
      rw [Orchestration.allRounds]
      exact List.mem_append_right _ (List.mem_singleton_self _))
    (by with_unfolding_all decide)
